import Mathlib

/-!
Identity subsystem of the `gold` Linked-Data server (`system.go`).

A shallow embedding of `HandleSystem`, `spkacNew` and `accountStatus`.

* Go strings are Lean `String`s (sequences of Unicode code points), byte slices are
  `List Byte`.
* The handlers run against a `World`: the file system, the response header map of
  `w http.ResponseWriter`, the diagnostics written by `DebugLog`, and the list of
  operating-system calls made so far.
* A handler either returns `(status, payload)` or stops in a Go run-time panic
  (nil pointer dereference, failed type assertion); both are values of `Outcome`.
* Code of the repository that is not part of `system.go` (`pathInfo`, `NewSPKACx509`,
  `ParseSPKAC`, `NewWebIDProfile`, the graph serializer, the package constants) and the
  library functions `strings.ToLower` and `json.Unmarshal` are taken as parameters,
  collected in `Env`.
* The library functions whose behaviour the properties depend on are modelled:
  `strings.Contains`, `path.Dir`/`path.Clean`, `base64.StdEncoding`, `json.Marshal` on
  `statusResponse`, and `os.Stat`/`os.MkdirAll`/`os.OpenFile` on a file-system model
  without symbolic links.
-/

namespace Gold

/-- Results of fallible calls can be compared. -/
instance decEqExcept {ε α : Type} [DecidableEq ε] [DecidableEq α] : DecidableEq (Except ε α)
  | .ok a, .ok b =>
    if h : a = b then isTrue (by rw [h]) else isFalse (by intro e; cases e; exact h rfl)
  | .error a, .error b =>
    if h : a = b then isTrue (by rw [h]) else isFalse (by intro e; cases e; exact h rfl)
  | .ok _, .error _ => isFalse (by intro e; cases e)
  | .error _, .ok _ => isFalse (by intro e; cases e)

/-! ## Bytes and base64 (`encoding/base64`, `StdEncoding`) -/

abbrev Byte := Fin 256

/-- The alphabet of `base64.StdEncoding`. -/
def encodeStd : List Char :=
  "ABCDEFGHIJKLMNOPQRSTUVWXYZabcdefghijklmnopqrstuvwxyz0123456789+/".data

def b64char (i : Nat) : Char := encodeStd.getD i 'A'

def b64val (c : Char) : Option Nat :=
  let i := encodeStd.indexOf c
  if i < 64 then some i else none

/-- The characters of `base64.StdEncoding.EncodeToString`: three bytes give four
characters, a remainder of one or two bytes is padded with `=`. -/
def base64_Encode : List Byte → List Char
  | [] => []
  | [a] =>
    let n := a.val * 65536
    [b64char (n / 262144), b64char (n / 4096 % 64), '=', '=']
  | [a, b] =>
    let n := a.val * 65536 + b.val * 256
    [b64char (n / 262144), b64char (n / 4096 % 64), b64char (n / 64 % 64), '=']
  | a :: b :: c :: rest =>
    let n := a.val * 65536 + b.val * 256 + c.val
    b64char (n / 262144) :: b64char (n / 4096 % 64) :: b64char (n / 64 % 64) ::
      b64char (n % 64) :: base64_Encode rest

def base64_StdEncoding_EncodeToString (src : List Byte) : String :=
  String.mk (base64_Encode src)

def byteOf (n : Nat) : Byte := ⟨n % 256, Nat.mod_lt _ (by decide)⟩

/-- Padded base64 decoding (RFC 4648, the alphabet of `StdEncoding`). -/
def base64_Decode : List Char → Option (List Byte)
  | [] => some []
  | a :: b :: c :: d :: rest =>
    if rest = [] ∧ d = '=' then
      if c = '=' then
        match b64val a, b64val b with
        | some x, some y => some [byteOf ((x * 64 + y) / 16)]
        | _, _ => none
      else
        match b64val a, b64val b, b64val c with
        | some x, some y, some z =>
          let n := (x * 64 + y) * 64 + z
          some [byteOf (n / 1024), byteOf (n / 4)]
        | _, _, _ => none
    else
      match b64val a, b64val b, b64val c, b64val d, base64_Decode rest with
      | some x, some y, some z, some u, some bs =>
        let n := ((x * 64 + y) * 64 + z) * 64 + u
        some (byteOf (n / 65536) :: byteOf (n / 256) :: byteOf n :: bs)
      | _, _, _, _, _ => none
  | _ => none

def base64_StdEncoding_DecodeString (s : String) : Option (List Byte) :=
  base64_Decode s.data

/-! ## `strings.Contains` -/

def containsChars : List Char → List Char → Bool
  | [], sub => sub.isPrefixOf []
  | c :: cs, sub => sub.isPrefixOf (c :: cs) || containsChars cs sub

/-- Model of `strings.Contains(s, substr)`: `substr` occurs somewhere within `s`. -/
def strings_Contains (s substr : String) : Bool := containsChars s.data substr.data

/-! ## Paths (`path.Dir`, `path.Clean`) -/

/-- The pieces of a path between its slashes (`"a//b/"` gives `a`, empty, `b`, empty). -/
def splitSlash : List Char → List (List Char)
  | [] => [[]]
  | c :: cs =>
    if c = '/' then [] :: splitSlash cs
    else
      match splitSlash cs with
      | [] => [[c]]
      | h :: t => (c :: h) :: t

def components (name : String) : List String := (splitSlash name.data).map String.mk

/-- One component of `path.Clean`: `out` holds the components kept so far, last first. -/
def cleanStep (rooted : Bool) (out : List String) (c : String) : List String :=
  if c = "" ∨ c = "." then out
  else if c = ".." then
    match out with
    | [] => if rooted then [] else [".."]
    | top :: below => if top = ".." then ".." :: top :: below else below
  else c :: out

/-- Model of `path.Clean`: collapse repeated slashes, drop `.` elements, resolve inner
`..` elements lexically, drop `..` at the start of a rooted path; the empty result is
`"."`. -/
def path_Clean (p : String) : String :=
  let rooted := p.data.head? = some '/'
  let kept := ((components p).foldl (cleanStep rooted) []).reverse
  let body := "/".intercalate kept
  if rooted then "/" ++ body else if body = "" then "." else body

/-- The part of `p` up to and including its last slash (the `dir` of `path.Split`). -/
def splitDir : List Char → List Char
  | [] => []
  | c :: cs =>
    if cs.contains '/' then c :: splitDir cs
    else if c = '/' then [c] else []

/-- Model of `path.Dir`: everything up to the last slash, cleaned. -/
def path_Dir (p : String) : String := path_Clean (String.mk (splitDir p.data))

/-! ## The file system -/

inductive Node where
  | dir : Node
  | file (content : String) : Node
deriving DecidableEq

/-- A resolved absolute location: the names from the root directory downwards. -/
abbrev Loc := List String

/-- The file system: what exists at which location, and the working directory of the
process. The root directory always exists. Symbolic links, permissions and limits on
the length of names are not modelled. -/
structure FS where
  entries : List (Loc × Node)
  cwd : Loc
deriving DecidableEq

def FS.lookup (fs : FS) (p : Loc) : Option Node :=
  if p = [] then some Node.dir else fs.entries.lookup p

def FS.put (fs : FS) (p : Loc) (n : Node) : FS :=
  { fs with entries := (p, n) :: fs.entries }

/-- The `IsDir` method of the `FileInfo` describing a node. -/
def Node.IsDir : Node → Bool
  | Node.dir => true
  | Node.file _ => false

inductive Errno where
  | ENOENT | ENOTDIR | EISDIR
deriving DecidableEq

def Errno.Error : Errno → String
  | .ENOENT => "no such file or directory"
  | .ENOTDIR => "not a directory"
  | .EISDIR => "is a directory"

/-- The message of an `*os.PathError`. -/
def PathError (op name : String) (e : Errno) : String :=
  op ++ " " ++ name ++ ": " ++ e.Error

/-- Where a path component leads from the directory `cur`. -/
def stepInto (cur : Loc) (c : String) : Loc :=
  if c = "" ∨ c = "." then cur
  else if c = ".." then cur.dropLast
  else cur ++ [c]

/-- Path resolution: every component is looked up in a location that must be an existing
directory; the location reached by the last component need not exist. -/
def walk (fs : FS) : Loc → List String → Except Errno Loc
  | cur, [] => .ok cur
  | cur, c :: cs =>
    match fs.lookup cur with
    | some Node.dir => walk fs (stepInto cur c) cs
    | some (Node.file _) => .error Errno.ENOTDIR
    | none => .error Errno.ENOENT

/-- Resolution starts at the root for a rooted path, at the working directory otherwise. -/
def FS.start (fs : FS) (name : String) : Loc :=
  if name.data.head? = some '/' then [] else fs.cwd

def FS.resolve (fs : FS) (name : String) : Except Errno Loc :=
  if name = "" then .error Errno.ENOENT else walk fs (fs.start name) (components name)

/-- Model of `os.Stat`: the node at `name`, or the error message (Go returns a nil
`FileInfo` exactly when it returns an error). -/
def os_Stat (fs : FS) (name : String) : Except String Node :=
  match fs.resolve name with
  | .error e => .error (PathError "stat" name e)
  | .ok q =>
    match fs.lookup q with
    | some n => .ok n
    | none => .error (PathError "stat" name Errno.ENOENT)

/-- Resolution that creates every missing directory on the way. `seen` holds the
components already passed, last first; a failure names the part of the path that was
in the way. -/
def mkdirWalk (fs : FS) : List String → Loc → List String → Except (String × Errno) FS
  | seen, cur, [] =>
    match fs.lookup cur with
    | some Node.dir => .ok fs
    | some (Node.file _) => .error ("/".intercalate seen.reverse, Errno.ENOTDIR)
    | none => .error ("/".intercalate seen.reverse, Errno.ENOENT)
  | seen, cur, c :: cs =>
    match fs.lookup cur with
    | some Node.dir =>
      match fs.lookup (stepInto cur c) with
      | none => mkdirWalk (fs.put (stepInto cur c) Node.dir) (c :: seen) (stepInto cur c) cs
      | some _ => mkdirWalk fs (c :: seen) (stepInto cur c) cs
    | some (Node.file _) => .error ("/".intercalate seen.reverse, Errno.ENOTDIR)
    | none => .error ("/".intercalate seen.reverse, Errno.ENOENT)

/-- Model of `os.MkdirAll`: creates the directory `name` along with any missing parents;
does nothing when `name` is already a directory; fails when a file is in the way, with
a `PathError` that names that file (the ancestor at which Go's recursion stops). -/
def os_MkdirAll (fs : FS) (name : String) : Except String FS :=
  if name = "" then .error (PathError "mkdir" name Errno.ENOENT)
  else
    match mkdirWalk fs [] (fs.start name) (components name) with
    | .error (blocked, e) => .error (PathError "mkdir" blocked e)
    | .ok fs1 => .ok fs1

/-- Model of `os.OpenFile(name, os.O_CREATE|os.O_TRUNC|os.O_WRONLY, 0644)`: an existing
file is emptied, a missing one is created in its (existing) directory; the open file is
identified by its location. -/
def os_OpenFile (fs : FS) (name : String) : Except String (FS × Loc) :=
  match fs.resolve name with
  | .error e => .error (PathError "open" name e)
  | .ok q =>
    match fs.lookup q with
    | some Node.dir => .error (PathError "open" name Errno.EISDIR)
    | some (Node.file _) => .ok (fs.put q (Node.file ""), q)
    | none =>
      if fs.lookup q.dropLast = some Node.dir then .ok (fs.put q (Node.file ""), q)
      else .error (PathError "open" name Errno.ENOENT)

/-- Writing `content` through an open file. -/
def File_Write (fs : FS) (f : Loc) (content : String) : FS := fs.put f (Node.file content)

/-- Every directory of the first file system is a directory of the second. -/
def dirsKept (fs fs1 : FS) : Prop :=
  fs1.cwd = fs.cwd ∧ ∀ p, fs.lookup p = some Node.dir → fs1.lookup p = some Node.dir

/-! ## JSON encoding of the response (`json.Marshal` on `statusResponse`) -/

structure accountRequest where
  Method : String
  AccountName : String
deriving DecidableEq

structure accountResponse where
  AccountName : String
  Available : Bool
deriving DecidableEq

structure statusResponse where
  Method : String
  Status : String
  Formuri : String
  Response : accountResponse
deriving DecidableEq

def hexDigit (n : Nat) : Char := "0123456789abcdef".data.getD n '0'

/-- How `json.Marshal` writes one character of a string: quote, backslash, newline,
carriage return and tab get a short escape; the other control characters and the
characters `<`, `>`, `&` are written as `\u00XX`; U+2028 and U+2029 are written as
six-character `\u` escapes; every other character stands for itself. (Go releases from
1.22 on write U+0008 and U+000C as `\b` and `\f`; both spellings are read back alike.) -/
def jsonEscapeChar (c : Char) : List Char :=
  if c = '"' then ['\\', '"']
  else if c = '\\' then ['\\', '\\']
  else if c = '\n' then ['\\', 'n']
  else if c = '\r' then ['\\', 'r']
  else if c = '\t' then ['\\', 't']
  else if c.toNat < 32 ∨ c = '<' ∨ c = '>' ∨ c = '&' then
    ['\\', 'u', '0', '0', hexDigit (c.toNat / 16), hexDigit (c.toNat % 16)]
  else if c.toNat = 0x2028 then ['\\', 'u', '2', '0', '2', '8']
  else if c.toNat = 0x2029 then ['\\', 'u', '2', '0', '2', '9']
  else [c]

def jsonEscape : List Char → List Char
  | [] => []
  | c :: cs => jsonEscapeChar c ++ jsonEscape cs

def jsonString (s : String) : List Char := '"' :: (jsonEscape s.data ++ ['"'])

def jsonBool (b : Bool) : List Char := if b then "true".data else "false".data

/-- One field of a struct: its quoted name, a colon, its value. -/
def jsonMember (name : String) (value : List Char) : List Char :=
  jsonString name ++ ':' :: value

/-- Model of `json.Marshal(res)` for a `statusResponse`: the fields in declaration order
under their `json` tags, without white space. Marshalling strings and booleans cannot
fail. -/
def json_Marshal (res : statusResponse) : String :=
  String.mk ('{' :: (jsonMember "method" (jsonString res.Method) ++ ',' ::
    (jsonMember "status" (jsonString res.Status) ++ ',' ::
    (jsonMember "formuri" (jsonString res.Formuri) ++ ',' ::
    (jsonMember "response" ('{' ::
      (jsonMember "accountName" (jsonString res.Response.AccountName) ++ ',' ::
      (jsonMember "available" (jsonBool res.Response.Available) ++ ['}']))) ++ ['}'])))))

/-! ## Reading JSON back -/

inductive JValue where
  | null : JValue
  | bool (b : Bool) : JValue
  | str (s : String) : JValue
  | arr (items : List JValue) : JValue
  | obj (members : List (String × JValue)) : JValue

def hexVal (c : Char) : Option Nat :=
  if 48 ≤ c.toNat ∧ c.toNat ≤ 57 then some (c.toNat - 48)
  else if 97 ≤ c.toNat ∧ c.toNat ≤ 102 then some (c.toNat - 87)
  else if 65 ≤ c.toNat ∧ c.toNat ≤ 70 then some (c.toNat - 55)
  else none

/-- The value of four hexadecimal digits. -/
def hex4 (a b c d : Char) : Option Nat :=
  match hexVal a, hexVal b, hexVal c, hexVal d with
  | some x, some y, some z, some u => some (((x * 16 + y) * 16 + z) * 16 + u)
  | _, _, _, _ => none

/-- The character a one-letter escape stands for. -/
def unescape (e : Char) : Option Char :=
  if e = '"' then some '"'
  else if e = '\\' then some '\\'
  else if e = '/' then some '/'
  else if e = 'b' then some (Char.ofNat 8)
  else if e = 'f' then some (Char.ofNat 12)
  else if e = 'n' then some '\n'
  else if e = 'r' then some '\r'
  else if e = 't' then some '\t'
  else none

/-- A low surrogate escape at the start of the input: its value and the input after
it. -/
def lowSurrogate : List Char → Option (Nat × List Char)
  | b1 :: u1 :: a :: b :: c :: d :: rest =>
    match hex4 a b c d with
    | some v => if b1 = '\\' ∧ u1 = 'u' ∧ 0xDC00 ≤ v ∧ v < 0xE000 then some (v, rest) else none
    | none => none
  | _ => none

/-- The rest of a JSON string after its opening quote: the characters it denotes and
the input after its closing quote. Every character or escape read spends one unit of
fuel. -/
def parseStr : Nat → List Char → Option (List Char × List Char)
  | 0, _ => none
  | _ + 1, [] => none
  | n + 1, c :: cs =>
    if c = '"' then some ([], cs)
    else if c = '\\' then
      match cs with
      | [] => none
      | e :: cs1 =>
        if e = 'u' then
          match cs1 with
          | a :: b :: c2 :: d :: cs2 =>
            match hex4 a b c2 d with
            | none => none
            | some v =>
              if 0xD800 ≤ v ∧ v < 0xDC00 then
                -- a high surrogate: combine with a following low surrogate
                match lowSurrogate cs2 with
                | some (v2, cs3) =>
                  match parseStr n cs3 with
                  | some (s, r) =>
                    some (Char.ofNat (0x10000 + (v - 0xD800) * 0x400 + (v2 - 0xDC00)) :: s, r)
                  | none => none
                | none =>
                  match parseStr n cs2 with
                  | some (s, r) => some (Char.ofNat 0xFFFD :: s, r)
                  | none => none
              else if 0xDC00 ≤ v ∧ v < 0xE000 then
                match parseStr n cs2 with
                | some (s, r) => some (Char.ofNat 0xFFFD :: s, r)
                | none => none
              else
                match parseStr n cs2 with
                | some (s, r) => some (Char.ofNat v :: s, r)
                | none => none
          | _ => none
        else
          match unescape e, parseStr n cs1 with
          | some ch, some (s, r) => some (ch :: s, r)
          | _, _ => none
    else if c.toNat < 32 then none
    else
      match parseStr n cs with
      | some (s, r) => some (c :: s, r)
      | none => none

def isSpace (c : Char) : Bool := c = ' ' || c = '\n' || c = '\r' || c = '\t'

def skipWs (cs : List Char) : List Char := cs.dropWhile isSpace

def dropLeading : List Char → List Char → Option (List Char)
  | [], cs => some cs
  | _ :: _, [] => none
  | p :: ps, c :: cs => if p = c then dropLeading ps cs else none

/-- The members of an object after its opening brace, up to and including the closing
brace; `pv` parses a value. -/
def parseMembers (pv : List Char → Option (JValue × List Char)) :
    Nat → List Char → Option (List (String × JValue) × List Char)
  | 0, _ => none
  | n + 1, cs =>
    match skipWs cs with
    | [] => none
    | q :: r =>
      if q = '"' then
        match parseStr r.length r with
        | none => none
        | some (k, r1) =>
          match skipWs r1 with
          | [] => none
          | colon :: r2 =>
            if colon = ':' then
              match pv r2 with
              | none => none
              | some (v, r3) =>
                match skipWs r3 with
                | [] => none
                | sep :: r4 =>
                  if sep = '}' then some ([(String.mk k, v)], r4)
                  else if sep = ',' then
                    match parseMembers pv n r4 with
                    | some (ms, r5) => some ((String.mk k, v) :: ms, r5)
                    | none => none
                  else none
            else none
      else none

/-- The elements of an array after its opening bracket. -/
def parseElems (pv : List Char → Option (JValue × List Char)) :
    Nat → List Char → Option (List JValue × List Char)
  | 0, _ => none
  | n + 1, cs =>
    match pv cs with
    | none => none
    | some (v, r) =>
      match skipWs r with
      | [] => none
      | sep :: r1 =>
        if sep = ']' then some ([v], r1)
        else if sep = ',' then
          match parseElems pv n r1 with
          | some (vs, r2) => some (v :: vs, r2)
          | none => none
        else none

/-- A JSON value (strings, booleans, null, arrays, objects; numbers are not accepted)
at the start of the input, and the input after it. Every nested call spends one unit of
`fuel`. -/
def parseValue : Nat → List Char → Option (JValue × List Char)
  | 0, _ => none
  | n + 1, cs =>
    match skipWs cs with
    | [] => none
    | c :: r =>
      if c = '"' then
        match parseStr r.length r with
        | some (s, r1) => some (JValue.str (String.mk s), r1)
        | none => none
      else if c = '{' then
        match skipWs r with
        | [] => none
        | c1 :: r1 =>
          if c1 = '}' then some (JValue.obj [], r1)
          else
            match parseMembers (parseValue n) n (c1 :: r1) with
            | some (ms, r2) => some (JValue.obj ms, r2)
            | none => none
      else if c = '[' then
        match skipWs r with
        | [] => none
        | c1 :: r1 =>
          if c1 = ']' then some (JValue.arr [], r1)
          else
            match parseElems (parseValue n) n (c1 :: r1) with
            | some (vs, r2) => some (JValue.arr vs, r2)
            | none => none
      else
        match dropLeading "true".data (c :: r), dropLeading "false".data (c :: r),
          dropLeading "null".data (c :: r) with
        | some r1, _, _ => some (JValue.bool true, r1)
        | none, some r1, _ => some (JValue.bool false, r1)
        | none, none, some r1 => some (JValue.null, r1)
        | none, none, none => none

/-- Parse a whole JSON text. -/
def jsonParse (s : String) : Option JValue :=
  match parseValue (s.length + 1) s.data with
  | some (v, r) => if skipWs r = [] then some v else none
  | none => none

def JValue.get (v : JValue) (k : String) : Option JValue :=
  match v with
  | JValue.obj ms => ms.lookup k
  | _ => none

/-- The JSON value a `statusResponse` is written as. -/
def statusResponse.toJSON (res : statusResponse) : JValue :=
  JValue.obj [("method", JValue.str res.Method), ("status", JValue.str res.Status),
    ("formuri", JValue.str res.Formuri),
    ("response", JValue.obj [("accountName", JValue.str res.Response.AccountName),
      ("available", JValue.bool res.Response.Available)])]

/-! ## Requests, the server, the world -/

abbrev Header := List (String × String)

/-- Model of `http.Header.Get`: the value stored under `key`, or the empty string. -/
def Header.Get (h : Header) (key : String) : String := (h.lookup key).getD ""

/-- Model of `http.Header.Set`: `key` now holds `value` alone. -/
def Header.Set (h : Header) (key value : String) : Header :=
  (key, value) :: h.filter (fun kv => kv.1 ≠ key)

structure httpRequest where
  BaseURI : String
  Form : List (String × String)
  Header : Header
  Body : Except String (List Byte)

/-- Model of `req.FormValue(key)`: the first value for `key`, or the empty string. -/
def httpRequest.FormValue (req : httpRequest) (key : String) : String :=
  (req.Form.lookup key).getD ""

structure Server where
  root : String
  vhosts : Bool
deriving DecidableEq

/-- The fields of the repository's `pathInfo` record that `system.go` reads. -/
structure pathInfo where
  Root : String
  Base : String
deriving DecidableEq

structure webidAccount where
  URI : String
  Name : String
  Email : String
  Img : String
  Modulus : String
  Exponent : String
deriving DecidableEq

/-- What `ParseSPKAC` hands back as `interface{}`: an `*rsa.PublicKey` or something
else. -/
inductive PublicKey where
  | rsa (N : Nat) (E : Int) : PublicKey
  | other (kind : String) : PublicKey
deriving DecidableEq

/-- The parts of the repository and of the Go library that `system.go` calls and that are
kept abstract: the package variables `ServerPort`, `SystemPrefix`, `HCType`;
`strings.ToLower`; `(*Server).pathInfo`, which returns a possibly nil `*pathInfo` and a
possibly nil error; `json.Unmarshal` into an `accountRequest`; `NewSPKACx509`;
`ParseSPKAC`; `NewWebIDProfile`; and `(*Graph).WriteFile`, given as the text it writes
for a media type, or its error. -/
structure Env where
  ServerPort : String
  SystemPrefix : String
  HCType : String
  strings_ToLower : String → String
  Server_pathInfo : Server → String → Option pathInfo × Option String
  json_Unmarshal : List Byte → Except String accountRequest
  NewSPKACx509 : String → String → String → Except String (List Byte)
  ParseSPKAC : String → Except String PublicKey
  Graph : Type
  NewWebIDProfile : webidAccount → Graph
  Graph_WriteFile : Graph → String → Except String String

inductive OsCall where
  | stat (name : String)
  | mkdirAll (name : String)
  | openFile (name : String)
  | write (f : Loc)
deriving DecidableEq

/-- Everything a handler can read or change besides its arguments. -/
structure World where
  fs : FS
  header : Header
  log : List (String × String)
  calls : List OsCall
deriving DecidableEq

def World.DebugLog (w : World) (location msg : String) : World :=
  { w with log := w.log ++ [(location, msg)] }

def World.called (w : World) (c : OsCall) : World :=
  { w with calls := w.calls ++ [c] }

inductive Outcome where
  | returned (status : Int) (payload : String) : Outcome
  | panicked (msg : String) : Outcome
deriving DecidableEq

def nilDereference : String := "runtime error: invalid memory address or nil pointer dereference"

def notRSA (kind : String) : String :=
  "interface conversion: interface \x7b\x7d is " ++ kind ++ ", not *rsa.PublicKey"

/-- The text of `fmt.Sprintf("%x", n)` for a non-negative big integer. -/
def fmt_Sprintf_x (n : Nat) : String := String.mk (Nat.toDigits 16 n)

/-- The text of `fmt.Sprintf("%d", e)`. -/
def fmt_Sprintf_d (e : Int) : String :=
  match e with
  | Int.ofNat m => String.mk (Nat.toDigits 10 m)
  | Int.negSucc m => "-" ++ String.mk (Nat.toDigits 10 (m + 1))

/-! ## `system.go` -/

/-- The value of `port` in `spkacNew`:
`port := ""; if ServerPort != ":443" || ServerPort != ":80" { port = ServerPort }`. -/
def spkacNew_port (env : Env) : String :=
  if env.ServerPort ≠ ":443" ∨ env.ServerPort ≠ ":80" then env.ServerPort else ""

/-- The value of `webidURI` in `spkacNew`, for the lowercased `username` and
`resource.Root`. -/
def spkacNew_webidURI (env : Env) (username root : String) : String :=
  "https://" ++ username ++ "." ++ root ++ spkacNew_port env ++ "/profile/card#me"

/-- The value of `webidPath` in `spkacNew`. -/
def spkacNew_webidPath (s : Server) (username root : String) : String :=
  s.root ++ username ++ "." ++ root ++ "/profile/"

def certFrame (cert : String) : String :=
  "<iframe width=\"0\" height=\"0\" style=\"display: none;\" src=\"data:application/x-x509-user-cert;base64," ++
    cert ++ "\"></iframe>"

def spkacNew (env : Env) (w : World) (req : httpRequest) (s : Server) : Outcome × World :=
  let resource := (env.Server_pathInfo s req.BaseURI).1
  let username := env.strings_ToLower (req.FormValue "username")
  match resource with
  | none => (Outcome.panicked nilDereference, w)
  | some resource =>
    let webidPath := spkacNew_webidPath s username resource.Root
    let webidFile := webidPath ++ "card"
    let webidURI := spkacNew_webidURI env username resource.Root
    let spkac := req.FormValue "SPKAC"
    let account : webidAccount :=
      { URI := webidURI, Name := req.FormValue "name", Email := req.FormValue "email",
        Img := req.FormValue "img", Modulus := "", Exponent := "" }
    -- create a new x509 cert based on the public key
    let certName := account.Name ++ " [on " ++ username ++ "." ++ resource.Root ++ "]"
    match env.NewSPKACx509 webidURI certName spkac with
    | .error err =>
      (Outcome.returned 500 err, w.DebugLog "System" ("SPKAC NewSPKACx509 error: " ++ err))
    | .ok newSpkac =>
      -- get public key from spkac
      match env.ParseSPKAC spkac with
      | .error err =>
        (Outcome.returned 500 err, w.DebugLog "System" ("SPKAC parse error: " ++ err))
      | .ok (PublicKey.other kind) => (Outcome.panicked (notRSA kind), w)
      | .ok (PublicKey.rsa N E) =>
        let account := { account with Modulus := fmt_Sprintf_x N, Exponent := fmt_Sprintf_d E }
        -- Get WebID profile graph for this account
        let g := env.NewWebIDProfile account
        -- create account space
        let w := w.called (OsCall.mkdirAll (path_Dir webidPath))
        match os_MkdirAll w.fs (path_Dir webidPath) with
        | .error err =>
          (Outcome.returned 500 err, w.DebugLog "Server" ("SPKAC MkdirAll error: " ++ err))
        | .ok fs1 =>
          let w := { w with fs := fs1 }
          -- open WebID profile file
          let w := w.called (OsCall.openFile webidFile)
          match os_OpenFile w.fs webidFile with
          | .error err =>
            (Outcome.returned 500 err, w.DebugLog "Server" ("SPKAC os.OpenFile error: " ++ err))
          | .ok (fs2, f) =>
            let w := { w with fs := fs2 }
            -- write WebID profile to disk
            match env.Graph_WriteFile g "text/turtle" with
            | .error err =>
              (Outcome.returned 500 err,
                w.DebugLog "Server" ("SPKAC saving profile error: " ++ err))
            | .ok text =>
              let w := w.called (OsCall.write f)
              let w := { w with fs := File_Write w.fs f text }
              let cert := base64_StdEncoding_EncodeToString newSpkac
              let w := w.DebugLog "System" cert
              -- Chrome access direct download of certs; other browsers don't
              let ua := req.Header.Get "User-Agent"
              let w :=
                if strings_Contains ua "Chrome" then
                  { w with header :=
                      w.header.Set env.HCType "application/x-x509-user-cert; charset=utf-8" }
                else w
              (Outcome.returned 200 (certFrame cert), w)

/-- The path at which `accountStatus` looks for the account and under which `spkacNew`
creates it: `s.root + name + "." + resource.Root`. -/
def accountRoot (s : Server) (name root : String) : String :=
  s.root ++ name ++ "." ++ root

def accountStatus (env : Env) (w : World) (req : httpRequest) (s : Server) : Outcome × World :=
  let resource := (env.Server_pathInfo s req.BaseURI).1
  match req.Body with
  | .error err => (Outcome.returned 500 err, w.DebugLog "System" ("Read body error: " ++ err))
  | .ok data =>
    if data.length = 0 then
      (Outcome.returned 500 "Empty request for accountStatus API",
        w.DebugLog "System" "Empty request for accountStatus API")
    else
      match env.json_Unmarshal data with
      | .error err =>
        (Outcome.returned 500 err, w.DebugLog "System" ("Unmarshal error: " ++ err))
      | .ok accReq =>
        let accReq := { accReq with AccountName := env.strings_ToLower accReq.AccountName }
        let w := { w with header := w.header.Set env.HCType "application/json" }
        let status := "success"
        let accName := accReq.AccountName
        let w := w.DebugLog "System" ("Checking if account <" ++ accReq.AccountName ++ "> exists...")
        match resource with
        | none => (Outcome.panicked nilDereference, w)
        | some resource =>
          let w := w.called (OsCall.stat (accountRoot s accName resource.Root))
          let stat := os_Stat w.fs (accountRoot s accName resource.Root)
          let w :=
            match stat with
            | .error err => w.DebugLog "System" ("Stat error: " ++ err)
            | .ok _ => w
          -- stat != nil && stat.IsDir()
          let found :=
            match stat with
            | .error _ => false
            | .ok info => info.IsDir
          let w :=
            if found then w.DebugLog "System" ("Found " ++ s.root ++ accName ++ "." ++ resource.Root)
            else w
          let isAvailable := !found
          let res : statusResponse :=
            { Method := "accountStatus", Status := status,
              Formuri := resource.Base ++ "/" ++ env.SystemPrefix ++ "/spkac",
              Response := { AccountName := accName, Available := isAvailable } }
          (Outcome.returned 200 (json_Marshal res), w)

/-- HandleSystem is a router for system specific APIs. -/
def HandleSystem (env : Env) (w : World) (req : httpRequest) (s : Server) : Outcome × World :=
  if strings_Contains req.BaseURI "accountStatus" then
    -- unsupported yet when server is running on one host
    if s.vhosts = true then accountStatus env w req s
    else (Outcome.returned 200 "", w)
  else if strings_Contains req.BaseURI "spkac" then spkacNew env w req s
  else (Outcome.returned 200 "", w)

/-! ## The steps of an issuance, for stating properties of `spkacNew`

Each is the expression `spkacNew` evaluates at that step, for the resource `r` that path
resolution produced. -/

/-- The case-folded account name of an issuance request. -/
def spkacNew_username (env : Env) (req : httpRequest) : String :=
  env.strings_ToLower (req.FormValue "username")

/-- Certificate minting: the call of `NewSPKACx509`. -/
def mintStep (env : Env) (req : httpRequest) (r : pathInfo) : Except String (List Byte) :=
  env.NewSPKACx509 (spkacNew_webidURI env (spkacNew_username env req) r.Root)
    (req.FormValue "name" ++ " [on " ++ spkacNew_username env req ++ "." ++ r.Root ++ "]")
    (req.FormValue "SPKAC")

/-- Key extraction: the call of `ParseSPKAC`. -/
def extractStep (env : Env) (req : httpRequest) : Except String PublicKey :=
  env.ParseSPKAC (req.FormValue "SPKAC")

/-- Directory creation: the call of `os.MkdirAll`. -/
def mkdirStep (env : Env) (req : httpRequest) (s : Server) (r : pathInfo) (fs : FS) :
    Except String FS :=
  os_MkdirAll fs (path_Dir (spkacNew_webidPath s (spkacNew_username env req) r.Root))

/-- Opening the profile: the call of `os.OpenFile`. -/
def openStep (env : Env) (req : httpRequest) (s : Server) (r : pathInfo) (fs : FS) :
    Except String (FS × Loc) :=
  os_OpenFile fs (spkacNew_webidPath s (spkacNew_username env req) r.Root ++ "card")

/-- Serializing the profile: the call of `g.WriteFile` for an RSA key `N`, `E`. -/
def writeStep (env : Env) (req : httpRequest) (r : pathInfo) (N : Nat) (E : Int) :
    Except String String :=
  env.Graph_WriteFile
    (env.NewWebIDProfile
      { URI := spkacNew_webidURI env (spkacNew_username env req) r.Root,
        Name := req.FormValue "name", Email := req.FormValue "email",
        Img := req.FormValue "img", Modulus := fmt_Sprintf_x N, Exponent := fmt_Sprintf_d E })
    "text/turtle"

/-- Whether `os.Stat(name)` finds a directory. -/
def statIsDir (fs : FS) (name : String) : Bool :=
  match os_Stat fs name with
  | .error _ => false
  | .ok info => info.IsDir

/-- The `available` member of the `response` member of a JSON text. -/
def availableIn (payload : String) : Option JValue :=
  ((jsonParse payload).bind (fun v => v.get "response")).bind (fun v => v.get "available")

/-- The world after a successful issuance. -/
def issuedWorld (env : Env) (w : World) (req : httpRequest) (s : Server) (r : pathInfo)
    (cert : List Byte) (fs2 : FS) (f : Loc) (text : String) : World :=
  { fs := File_Write fs2 f text,
    header :=
      if strings_Contains (req.Header.Get "User-Agent") "Chrome" then
        w.header.Set env.HCType "application/x-x509-user-cert; charset=utf-8"
      else w.header,
    log := w.log ++ [("System", base64_StdEncoding_EncodeToString cert)],
    calls := w.calls ++
      [OsCall.mkdirAll (path_Dir (spkacNew_webidPath s (spkacNew_username env req) r.Root)),
       OsCall.openFile (spkacNew_webidPath s (spkacNew_username env req) r.Root ++ "card"),
       OsCall.write f] }

/-! ## A concrete deployment, on which the definitions are run -/

def asciiLower (s : String) : String := String.mk (s.data.map Char.toLower)

def bytesOf (s : String) : List Byte := s.data.map (fun c => byteOf c.toNat)

def textOf (data : List Byte) : String := String.mk (data.map (fun b => Char.ofNat b.val))

def stringMember (v : JValue) (k : String) : Except String String :=
  match v.get k with
  | none => .ok ""
  | some (JValue.str s) => .ok s
  | some _ => .error ("json: cannot unmarshal into Go struct field accountRequest." ++ k ++
      " of type string")

/-- A decoder for `accountRequest` bodies built on `jsonParse`. -/
def exampleUnmarshal (data : List Byte) : Except String accountRequest :=
  match jsonParse (textOf data) with
  | some (JValue.obj ms) =>
    match stringMember (JValue.obj ms) "Method", stringMember (JValue.obj ms) "AccountName" with
    | .ok m, .ok a => .ok { Method := m, AccountName := a }
    | .error e, _ => .error e
    | _, .error e => .error e
  | _ => .error "invalid character looking for beginning of value"

def exampleResource : pathInfo := { Root := "example.org", Base := "https://example.org" }

/-- A deployment on port 443 whose path resolver rejects the empty path only, and whose
signing-request functions reject the empty request only. -/
def exampleEnv : Env where
  ServerPort := ":443"
  SystemPrefix := ",system"
  HCType := "Content-Type"
  strings_ToLower := asciiLower
  Server_pathInfo := fun _ uri =>
    if uri = "" then (none, some "missing resource path") else (some exampleResource, none)
  json_Unmarshal := exampleUnmarshal
  NewSPKACx509 := fun _ _ spkac =>
    if spkac = "" then .error "asn1: syntax error: sequence truncated"
    else .ok [byteOf 48, byteOf 130, byteOf 1, byteOf 10, byteOf 2]
  ParseSPKAC := fun spkac =>
    if spkac = "" then .error "asn1: syntax error: sequence truncated"
    else if spkac = "dsa" then .ok (PublicKey.other "*dsa.PublicKey")
    else .ok (PublicKey.rsa 3233 17)
  Graph := webidAccount
  NewWebIDProfile := fun account => account
  Graph_WriteFile := fun g _ =>
    if g.Name = "" then .error "write: no space left on device"
    else .ok ("<" ++ g.URI ++ "> a <http://xmlns.com/foaf/0.1/Person> .")

/-- The same deployment, except that minting fails and reports the identity URI it was
asked to certify. -/
def echoEnv : Env :=
  { exampleEnv with NewSPKACx509 := fun uri _ _ => .error uri }

/-- The same deployment, except that path resolution fails with `InvalidPath` and yields
no resource. -/
def noResourceEnv : Env :=
  { exampleEnv with Server_pathInfo := fun _ _ => (none, some "InvalidPath") }

def exampleServer : Server := { root := "/srv/", vhosts := true }

/-- A store holding the account of `alice` and a plain file named like an account. -/
def exampleFS : FS :=
  { entries := [(["srv"], Node.dir), (["srv", "alice.example.org"], Node.dir),
      (["srv", "carol.example.org"], Node.file "")],
    cwd := [] }

def exampleWorld : World := { fs := exampleFS, header := [], log := [], calls := [] }

def statusRequest (name : String) : httpRequest :=
  { BaseURI := "https://example.org/,system/accountStatus", Form := [], Header := [],
    Body := .ok (bytesOf ("\x7b\"Method\":\"accountStatus\",\"AccountName\":\"" ++ name ++ "\"\x7d")) }

def emptyStatusRequest : httpRequest :=
  { BaseURI := "https://example.org/,system/accountStatus", Form := [], Header := [],
    Body := .ok [] }

def issueRequest (username spkac agent : String) : httpRequest :=
  { BaseURI := "https://example.org/,system/spkac",
    Form := [("username", username), ("name", "Bob"), ("email", "bob@example.org"),
      ("img", ""), ("SPKAC", spkac)],
    Header := [("User-Agent", agent)], Body := .ok [] }

set_option maxRecDepth 8192

/-! ## base64 -/

theorem b64val_b64char : ∀ i, i < 64 → b64val (b64char i) = some i := by decide

theorem b64char_ne_pad : ∀ i, i < 64 → b64char i ≠ '=' := by decide

/-- Decoding inverts encoding. -/
theorem base64_roundtrip : ∀ bs : List Byte, base64_Decode (base64_Encode bs) = some bs
  | [] => by simp [base64_Encode, base64_Decode]
  | [a] => by
    have ha := a.isLt
    have h1 : a.val * 65536 / 262144 < 64 := by omega
    have h2 : a.val * 65536 / 4096 % 64 < 64 := by omega
    simp only [base64_Encode, base64_Decode, b64val_b64char _ h1, b64val_b64char _ h2,
      and_self, if_true]
    have : byteOf ((a.val * 65536 / 262144 * 64 + a.val * 65536 / 4096 % 64) / 16) = a := by
      apply Fin.ext
      simp only [byteOf]
      omega
    simp [this]
  | [a, b] => by
    have ha := a.isLt
    have hb := b.isLt
    generalize hn : a.val * 65536 + b.val * 256 = n
    have h1 : n / 262144 < 64 := by omega
    have h2 : n / 4096 % 64 < 64 := by omega
    have h3 : n / 64 % 64 < 64 := by omega
    simp only [base64_Encode, base64_Decode, hn, b64val_b64char _ h1, b64val_b64char _ h2,
      b64val_b64char _ h3, b64char_ne_pad _ h3, and_self, if_true, if_false]
    have e1 : byteOf (((n / 262144 * 64 + n / 4096 % 64) * 64 + n / 64 % 64) / 1024) = a := by
      apply Fin.ext
      simp only [byteOf]
      omega
    have e2 : byteOf (((n / 262144 * 64 + n / 4096 % 64) * 64 + n / 64 % 64) / 4) = b := by
      apply Fin.ext
      simp only [byteOf]
      omega
    simp [e1, e2]
  | a :: b :: c :: rest => by
    have ih := base64_roundtrip rest
    have ha := a.isLt
    have hb := b.isLt
    have hc := c.isLt
    generalize hn : a.val * 65536 + b.val * 256 + c.val = n
    have h1 : n / 262144 < 64 := by omega
    have h2 : n / 4096 % 64 < 64 := by omega
    have h3 : n / 64 % 64 < 64 := by omega
    have h4 : n % 64 < 64 := by omega
    simp only [base64_Encode, base64_Decode, hn, b64val_b64char _ h1, b64val_b64char _ h2,
      b64val_b64char _ h3, b64val_b64char _ h4, b64char_ne_pad _ h4, and_false, if_false, ih]
    have e1 : byteOf ((((n / 262144 * 64 + n / 4096 % 64) * 64 + n / 64 % 64) * 64 + n % 64)
        / 65536) = a := by
      apply Fin.ext
      simp only [byteOf]
      omega
    have e2 : byteOf ((((n / 262144 * 64 + n / 4096 % 64) * 64 + n / 64 % 64) * 64 + n % 64)
        / 256) = b := by
      apply Fin.ext
      simp only [byteOf]
      omega
    have e3 : byteOf ((((n / 262144 * 64 + n / 4096 % 64) * 64 + n / 64 % 64) * 64 + n % 64))
        = c := by
      apply Fin.ext
      simp only [byteOf]
      omega
    simp [e1, e2, e3]

/-! ## `strings.Contains` finds exactly the substrings -/

theorem containsChars_iff (s sub : List Char) : containsChars s sub = true ↔ sub <:+: s := by
  induction s with
  | nil =>
    simp only [containsChars, List.isPrefixOf_iff_prefix, List.prefix_nil, List.infix_nil]
  | cons c cs ih =>
    simp only [containsChars, Bool.or_eq_true, List.isPrefixOf_iff_prefix, ih,
      List.infix_cons_iff]

/-! ## Reading the response back -/
theorem hexVal_hexDigit : ∀ d, d < 16 → hexVal (hexDigit d) = some d := by decide

theorem hex4_low (c : Char) (h : c.toNat < 256) :
    hex4 '0' '0' (hexDigit (c.toNat / 16)) (hexDigit (c.toNat % 16)) = some c.toNat := by
  have h1 : c.toNat / 16 < 16 := by omega
  have h2 : c.toNat % 16 < 16 := by omega
  have h0 : hexVal '0' = some 0 := by decide
  simp only [hex4, h0, hexVal_hexDigit _ h1, hexVal_hexDigit _ h2]
  congr 1
  omega

theorem parseStr_u (n : Nat) (a b c d : Char) (tail s r : List Char) (v : Nat)
    (hv : hex4 a b c d = some v) (hlt : v < 0xD800)
    (ih : parseStr n tail = some (s, r)) :
    parseStr (n + 1) ('\\' :: 'u' :: a :: b :: c :: d :: tail) = some (Char.ofNat v :: s, r) := by
  have h1 : ¬ (0xD800 ≤ v ∧ v < 0xDC00) := by omega
  have h2 : ¬ (0xDC00 ≤ v ∧ v < 0xE000) := by omega
  simp [parseStr, hv, h1, h2, ih]

theorem parseStr_escapeChar (c : Char) (n : Nat) (tail : List Char) (s r : List Char)
    (ih : parseStr n tail = some (s, r)) :
    parseStr (n + 1) (jsonEscapeChar c ++ tail) = some (c :: s, r) := by
  unfold jsonEscapeChar
  split_ifs with h1 h2 h3 h4 h5 h6 h7 h8
  · subst h1
    simp [parseStr, unescape, ih]
  · subst h2
    simp [parseStr, unescape, ih]
  · subst h3
    simp [parseStr, unescape, ih]
  · subst h4
    simp [parseStr, unescape, ih]
  · subst h5
    simp [parseStr, unescape, ih]
  · have hc : c.toNat < 256 := by
      rcases h6 with h | h | h | h
      · omega
      · subst h; decide
      · subst h; decide
      · subst h; decide
    have := parseStr_u n '0' '0' (hexDigit (c.toNat / 16)) (hexDigit (c.toNat % 16)) tail s r
      c.toNat (hex4_low c hc) (by omega) ih
    simpa [Char.ofNat_toNat] using this
  · have := parseStr_u n '2' '0' '2' '8' tail s r 0x2028 (by decide) (by omega) ih
    rw [← h7, Char.ofNat_toNat] at this
    simpa using this
  · have := parseStr_u n '2' '0' '2' '9' tail s r 0x2029 (by decide) (by omega) ih
    rw [← h8, Char.ofNat_toNat] at this
    simpa using this
  · simp at h6
    simp [parseStr, h1, h2, ih]
    omega

theorem parseStr_escape (s : List Char) (rest : List Char) :
    ∀ n, s.length < n → parseStr n (jsonEscape s ++ '"' :: rest) = some (s, rest) := by
  induction s with
  | nil =>
    intro n hn
    obtain ⟨m, rfl⟩ : ∃ m, n = m + 1 := ⟨n - 1, by simp at hn; omega⟩
    simp [jsonEscape, parseStr]
  | cons c cs ih =>
    intro n hn
    obtain ⟨m, rfl⟩ : ∃ m, n = m + 1 := ⟨n - 1, by simp at hn; omega⟩
    simp only [jsonEscape, List.append_assoc]
    exact parseStr_escapeChar c m _ cs rest (ih m (by simp at hn; omega))

theorem length_le_jsonEscape (s : List Char) : s.length ≤ (jsonEscape s).length := by
  induction s with
  | nil => simp [jsonEscape]
  | cons c cs ih =>
    have : 1 ≤ (jsonEscapeChar c).length := by
      unfold jsonEscapeChar
      split_ifs <;> simp
    simp only [jsonEscape, List.length_append, List.length_cons]
    omega

theorem parseStr_full (s rest : List Char) :
    parseStr (jsonEscape s ++ '"' :: rest).length (jsonEscape s ++ '"' :: rest)
      = some (s, rest) := by
  apply parseStr_escape
  have := length_le_jsonEscape s
  simp only [List.length_append, List.length_cons]
  omega

theorem skipWs_cons (c : Char) (cs : List Char) (h : isSpace c = false) :
    skipWs (c :: cs) = c :: cs := by
  simp [skipWs, List.dropWhile, h]

/-- A string value is read back. -/
theorem parseValue_string (n : Nat) (s : String) (rest : List Char) :
    parseValue (n + 1) ('"' :: (jsonEscape s.data ++ '"' :: rest)) = some (JValue.str s, rest) := by
  rw [parseValue, skipWs_cons _ _ (by decide)]
  simp only [if_true]
  rw [parseStr_full]

theorem parseValue_bool (n : Nat) (b : Bool) (c : Char) (rest : List Char) :
    parseValue (n + 1) (jsonBool b ++ c :: rest) = some (JValue.bool b, c :: rest) := by
  cases b <;> simp [jsonBool, parseValue, skipWs, isSpace, dropLeading]

theorem parseMembers_last (pv : List Char → Option (JValue × List Char)) (n : Nat)
    (k : String) (vs rest : List Char) (v : JValue)
    (hpv : pv vs = some (v, '}' :: rest)) :
    parseMembers pv (n + 1) ('"' :: (jsonEscape k.data ++ '"' :: ':' :: vs))
      = some ([(k, v)], rest) := by
  rw [parseMembers, skipWs_cons _ _ (by decide)]
  simp only [if_true]
  rw [parseStr_full]
  simp only [skipWs_cons _ _ (show isSpace ':' = false by decide), if_true, hpv]
  simp [skipWs_cons _ _ (show isSpace '}' = false by decide)]

theorem parseMembers_more (pv : List Char → Option (JValue × List Char)) (n : Nat)
    (k : String) (vs rest r : List Char) (v : JValue) (ms : List (String × JValue))
    (hpv : pv vs = some (v, ',' :: rest))
    (ih : parseMembers pv n rest = some (ms, r)) :
    parseMembers pv (n + 1) ('"' :: (jsonEscape k.data ++ '"' :: ':' :: vs))
      = some ((k, v) :: ms, r) := by
  rw [parseMembers, skipWs_cons _ _ (by decide)]
  simp only [if_true]
  rw [parseStr_full]
  simp only [skipWs_cons _ _ (show isSpace ':' = false by decide), if_true, hpv]
  simp [skipWs_cons _ _ (show isSpace ',' = false by decide), ih]

theorem parseValue_object2 (n : Nat) (k1 k2 : String) (v1 v2 : JValue) (vs rest : List Char)
    (h : parseMembers (parseValue (n + 1)) (n + 1) ('"' :: (jsonEscape k1.data ++ '"' :: ':' :: vs))
      = some ([(k1, v1), (k2, v2)], rest)) :
    parseValue (n + 2) ('{' :: '"' :: (jsonEscape k1.data ++ '"' :: ':' :: vs))
      = some (JValue.obj [(k1, v1), (k2, v2)], rest) := by
  rw [parseValue, skipWs_cons _ _ (by decide)]
  simp [skipWs_cons _ _ (show isSpace '"' = false by decide), h]

theorem parseValue_marshal (n : Nat) (res : statusResponse) :
    parseValue (n + 6) (json_Marshal res).data = some (res.toJSON, []) := by
  simp only [json_Marshal, jsonMember, jsonString, List.append_assoc, List.cons_append,
    List.nil_append, statusResponse.toJSON]
  rw [parseValue, skipWs_cons _ _ (by decide)]
  simp only [skipWs_cons _ _ (show isSpace '"' = false by decide)]
  have inner : parseValue (n + 5) ('{' :: '"' :: (jsonEscape "accountName".data ++ '"' :: ':' :: '"' ::
      (jsonEscape res.Response.AccountName.data ++ '"' :: ',' :: '"' ::
        (jsonEscape "available".data ++ '"' :: ':' ::
          (jsonBool res.Response.Available ++ ['}', '}'])))))
      = some (JValue.obj [("accountName", JValue.str res.Response.AccountName),
          ("available", JValue.bool res.Response.Available)], ['}']) := by
    apply parseValue_object2 (n + 3)
    apply parseMembers_more _ _ _ _ _ _ _ _ (parseValue_string _ _ _)
    exact parseMembers_last _ _ _ _ _ _ (parseValue_bool _ _ _ _)
  have outer := parseMembers_more (parseValue (n + 5)) (n + 4) "method" _ _ _ _ _
    (parseValue_string (n + 4) res.Method _)
    (parseMembers_more (parseValue (n + 5)) (n + 3) "status" _ _ _ _ _
      (parseValue_string (n + 4) res.Status _)
      (parseMembers_more (parseValue (n + 5)) (n + 2) "formuri" _ _ _ _ _
        (parseValue_string (n + 4) res.Formuri _)
        (parseMembers_last (parseValue (n + 5)) (n + 1) "response" _ _ _ inner)))
  simp [outer]

/-- Reading a marshalled response back gives its four fields and nothing else. -/
theorem jsonParse_marshal (res : statusResponse) :
    jsonParse (json_Marshal res) = some res.toJSON := by
  have hlen : ∃ n, (json_Marshal res).length + 1 = n + 6 := by
    refine ⟨(json_Marshal res).length - 5, ?_⟩
    have : 5 ≤ (json_Marshal res).length := by
      simp only [json_Marshal, jsonMember, jsonString, String.length, List.length_cons,
        List.length_append]
      omega
    omega
  obtain ⟨n, hn⟩ := hlen
  unfold jsonParse
  rw [hn, parseValue_marshal]
  simp [skipWs]

theorem availableIn_marshal (res : statusResponse) :
    availableIn (json_Marshal res) = some (JValue.bool res.Response.Available) := by
  unfold availableIn
  rw [jsonParse_marshal]
  simp only [statusResponse.toJSON, Option.bind, JValue.get, List.lookup]
  have h1 : (("response" : String) == "method") = false := by decide
  have h2 : (("response" : String) == "status") = false := by decide
  have h3 : (("response" : String) == "formuri") = false := by decide
  have h4 : (("response" : String) == "response") = true := by decide
  have h5 : (("available" : String) == "accountName") = false := by decide
  have h6 : (("available" : String) == "available") = true := by decide
  simp only [h1, h2, h3, h4]
  simp only [List.lookup, h5, h6]

/-! ## Path resolution -/

theorem splitSlash_ne_nil (a : List Char) : splitSlash a ≠ [] := by
  cases a with
  | nil => simp [splitSlash]
  | cons c cs =>
    simp only [splitSlash]
    split_ifs
    · simp
    · split <;> simp

theorem splitSlash_append (a b : List Char) :
    splitSlash (a ++ '/' :: b) = splitSlash a ++ splitSlash b := by
  induction a with
  | nil => simp [splitSlash]
  | cons c cs ih =>
    simp only [List.cons_append, splitSlash]
    split_ifs
    · simp [ih]
    · simp only [List.append_eq, ih]
      cases h : splitSlash cs with
      | nil => exact absurd h (splitSlash_ne_nil cs)
      | cons x xs => simp

theorem components_append_slash (x y : String) :
    components (x ++ "/" ++ y) = components x ++ components y := by
  simp only [components, String.data_append]
  rw [List.append_assoc, List.singleton_append, splitSlash_append, List.map_append]

theorem walk_append (fs : FS) (cs1 cs2 : List String) :
    ∀ cur q, walk fs cur (cs1 ++ cs2) = .ok q →
      ∃ q1, walk fs cur cs1 = .ok q1 ∧ walk fs q1 cs2 = .ok q := by
  induction cs1 with
  | nil => intro cur q h; exact ⟨cur, rfl, h⟩
  | cons c cs ih =>
    intro cur q h
    simp only [List.cons_append, walk] at h ⊢
    split at h
    · exact ih _ _ h
    · simp at h
    · simp at h

theorem walk_mono (fs fs1 : FS) (hk : dirsKept fs fs1) (cs : List String) :
    ∀ cur q, walk fs cur cs = .ok q → walk fs1 cur cs = .ok q := by
  induction cs with
  | nil => intro cur q h; exact h
  | cons c cs ih =>
    intro cur q h
    simp only [walk] at h ⊢
    split at h
    · next hd => rw [hk.2 _ hd]; exact ih _ _ h
    · simp at h
    · simp at h

theorem lookup_put (fs : FS) (p q : Loc) (n : Node) :
    (fs.put p n).lookup q = if q = [] then some Node.dir else if q = p then some n
      else fs.lookup q := by
  unfold FS.lookup FS.put
  by_cases hq : q = []
  · simp [hq]
  · by_cases hp : q = p
    · subst hp; simp [hq, List.lookup]
    · simp only [hq, if_false, hp, List.lookup]
      have : (q == p) = false := by simpa using hp
      simp [this]

theorem dirsKept_put (fs : FS) (f : Loc) (n : Node) (h : fs.lookup f ≠ some Node.dir) :
    dirsKept fs (fs.put f n) := by
  refine ⟨rfl, ?_⟩
  intro p hp
  rw [lookup_put]
  by_cases hq : p = []
  · simp [hq]
  · have : p ≠ f := by
      intro e; subst e; exact h hp
    simp [hq, this, hp]

theorem dirsKept_trans {a b c : FS} (h1 : dirsKept a b) (h2 : dirsKept b c) : dirsKept a c :=
  ⟨h2.1.trans h1.1, fun p hp => h2.2 p (h1.2 p hp)⟩

theorem start_append (fs : FS) (x y : String) (hx : x ≠ "") :
    fs.start (x ++ y) = fs.start x := by
  unfold FS.start
  have : x.data ≠ [] := by
    intro h
    apply hx
    cases x
    simp_all
  cases hd : x.data with
  | nil => exact absurd hd this
  | cons c cs => simp [String.data_append, hd]

theorem start_mono (fs fs1 : FS) (hk : dirsKept fs fs1) (x : String) :
    fs1.start x = fs.start x := by
  unfold FS.start
  rw [hk.1]

/-- What a successful `os.OpenFile` did. -/
theorem os_OpenFile_ok (fs fs2 : FS) (name : String) (f : Loc)
    (h : os_OpenFile fs name = .ok (fs2, f)) :
    fs.resolve name = .ok f ∧ fs.lookup f ≠ some Node.dir ∧ fs2 = fs.put f (Node.file "") := by
  unfold os_OpenFile at h
  split at h
  · simp at h
  · next q hq =>
    split at h
    · simp at h
    · next c hc =>
      simp only [Except.ok.injEq, Prod.mk.injEq] at h
      obtain ⟨h1, h2⟩ := h
      subst h2
      exact ⟨hq, by simp [hc], h1.symm⟩
    · next hc =>
      split_ifs at h
      simp only [Except.ok.injEq, Prod.mk.injEq] at h
      obtain ⟨h1, h2⟩ := h
      subst h2
      exact ⟨hq, by simp [hc], h1.symm⟩

theorem walk_profile_card (fs : FS) (q1 f : Loc)
    (h : walk fs q1 ["profile", "card"] = .ok f) :
    fs.lookup q1 = some Node.dir ∧ f = q1 ++ ["profile", "card"] := by
  simp only [walk] at h
  split at h
  · next hd =>
    split at h
    · have e1 : stepInto q1 "profile" = q1 ++ ["profile"] := by
        simp [stepInto]
      have e2 : stepInto (q1 ++ ["profile"]) "card" = q1 ++ ["profile", "card"] := by
        simp [stepInto]
      rw [e1, e2] at h
      simp only [Except.ok.injEq] at h
      exact ⟨hd, h.symm⟩
    · simp at h
    · simp at h
  · simp at h
  · simp at h

theorem profile_path (x : String) : x ++ "/profile/card" = x ++ "/" ++ "profile/card" := by
  rw [String.append_assoc]
  rfl

/-- Once the profile has been opened for writing under `x` and written, `x` is a
directory and the profile is a file holding the text. -/
theorem profile_created (fs1 fs2 : FS) (x text : String) (f : Loc) (hx : x ≠ "")
    (h : os_OpenFile fs1 (x ++ "/profile/card") = .ok (fs2, f)) :
    os_Stat (File_Write fs2 f text) x = .ok Node.dir ∧
      os_Stat (File_Write fs2 f text) (x ++ "/profile/card") = .ok (Node.file text) := by
  obtain ⟨hres, hnd, rfl⟩ := os_OpenFile_ok _ _ _ _ h
  have hne : x ++ "/profile/card" ≠ "" := by
    intro e
    have := congrArg String.length e
    simp only [String.length_append] at this
    have h13 : "/profile/card".length = 13 := by decide
    have h0 : "".length = 0 := by decide
    omega
  unfold FS.resolve at hres
  rw [if_neg hne, start_append _ _ _ hx, profile_path, components_append_slash] at hres
  have hc : components "profile/card" = ["profile", "card"] := by decide
  rw [hc] at hres
  obtain ⟨q1, hw1, hw2⟩ := walk_append _ _ _ _ _ hres
  obtain ⟨hq1, hf⟩ := walk_profile_card _ _ _ hw2
  have hfne : f ≠ [] := by rw [hf]; simp
  have hk1 : dirsKept fs1 (fs1.put f (Node.file "")) := dirsKept_put _ _ _ hnd
  have hk2 : dirsKept (fs1.put f (Node.file "")) (File_Write (fs1.put f (Node.file "")) f text) := by
    apply dirsKept_put
    rw [lookup_put]
    simp [hfne]
  have hk := dirsKept_trans hk1 hk2
  constructor
  · unfold os_Stat FS.resolve
    rw [if_neg hx, start_mono _ _ hk, walk_mono _ _ hk _ _ _ hw1]
    simp [hk.2 _ hq1]
  · unfold os_Stat FS.resolve
    rw [if_neg hne, start_append _ _ _ hx, profile_path, components_append_slash, hc,
      start_mono _ _ hk, walk_mono _ _ hk _ _ _ hres]
    simp [File_Write, lookup_put, hfne]

theorem dirsKept_refl (fs : FS) : dirsKept fs fs := ⟨rfl, fun _ h => h⟩

/-- A successful creating walk keeps every directory and ends in a directory that the
plain walk now reaches. -/
theorem mkdirWalk_ok (cs : List String) :
    ∀ (fs fs1 : FS) (seen : List String) (cur : Loc), mkdirWalk fs seen cur cs = .ok fs1 →
      dirsKept fs fs1 ∧ ∃ q, walk fs1 cur cs = .ok q ∧ fs1.lookup q = some Node.dir := by
  induction cs with
  | nil =>
    intro fs fs1 seen cur h
    simp only [mkdirWalk] at h
    split at h
    · next hd =>
      simp only [Except.ok.injEq] at h
      subst h
      exact ⟨dirsKept_refl _, cur, rfl, hd⟩
    · simp at h
    · simp at h
  | cons c cs ih =>
    intro fs fs1 seen cur h
    simp only [mkdirWalk] at h
    split at h
    · next hd =>
      split at h
      · next hn =>
        obtain ⟨hk, q, hw, hq⟩ := ih _ _ _ _ h
        have hk0 : dirsKept fs (fs.put (stepInto cur c) Node.dir) :=
          dirsKept_put _ _ _ (by simp [hn])
        have hk1 := dirsKept_trans hk0 hk
        refine ⟨hk1, q, ?_, hq⟩
        simp only [walk, hk1.2 _ hd]
        exact hw
      · obtain ⟨hk, q, hw, hq⟩ := ih _ _ _ _ h
        refine ⟨hk, q, ?_, hq⟩
        simp only [walk, hk.2 _ hd]
        exact hw
    · simp at h
    · simp at h

/-- After a successful `os.MkdirAll(name)`, `os.Stat(name)` finds a directory, and what
was a directory before still is one. -/
theorem os_MkdirAll_ok (fs fs1 : FS) (name : String) (h : os_MkdirAll fs name = .ok fs1) :
    os_Stat fs1 name = .ok Node.dir ∧ dirsKept fs fs1 := by
  unfold os_MkdirAll at h
  split_ifs at h with hn
  split at h
  · simp at h
  · next fs2 hw =>
    simp only [Except.ok.injEq] at h
    subst h
    obtain ⟨hk, q, hwalk, hq⟩ := mkdirWalk_ok _ _ _ _ _ hw
    refine ⟨?_, hk⟩
    unfold os_Stat FS.resolve
    rw [if_neg hn, start_mono _ _ hk, hwalk]
    simp [hq]

/-! ## The handlers -/

theorem statIsDir_iff (fs : FS) (name : String) :
    statIsDir fs name = true ↔ os_Stat fs name = .ok Node.dir := by
  unfold statIsDir
  cases h : os_Stat fs name with
  | error e => simp
  | ok info => cases info <;> simp [Node.IsDir]

/-- What `accountStatus` does with a readable, non-empty, parseable body once path
resolution has produced a resource. -/
theorem accountStatus_ok (env : Env) (w : World) (req : httpRequest) (s : Server)
    (r : pathInfo) (data : List Byte) (accReq : accountRequest)
    (hr : (env.Server_pathInfo s req.BaseURI).1 = some r)
    (hb : req.Body = .ok data) (hd : data ≠ [])
    (hu : env.json_Unmarshal data = .ok accReq) :
    (accountStatus env w req s).1 = Outcome.returned 200 (json_Marshal
      { Method := "accountStatus", Status := "success",
        Formuri := r.Base ++ "/" ++ env.SystemPrefix ++ "/spkac",
        Response :=
          { AccountName := env.strings_ToLower accReq.AccountName,
            Available := !statIsDir w.fs
              (accountRoot s (env.strings_ToLower accReq.AccountName) r.Root) } }) := by
  have hlen : ¬ data.length = 0 := by
    intro h
    exact hd (List.length_eq_zero.mp h)
  simp only [accountStatus, hr, hb, hu, hlen, if_false, statIsDir, World.called, World.DebugLog]

theorem Header_Get_Set (h : Header) (k v : String) : (h.Set k v).Get k = v := by
  simp [Header.Get, Header.Set, List.lookup]

/-- C10: `HandleSystem` hands the request to `accountStatus` when the URI contains
"accountStatus" and vhosts is enabled, to `spkacNew` when the URI contains "spkac" and
not "accountStatus", and in every other case, an "accountStatus" URI with vhosts
disabled included, returns (200, "") and leaves the world (store, operating-system
calls, headers, log) as it was. -/
theorem C10_HandleSystem_routes (env : Env) (w : World) (req : httpRequest) (s : Server) :
    (strings_Contains req.BaseURI "accountStatus" = true ∧ s.vhosts = true →
        HandleSystem env w req s = accountStatus env w req s) ∧
    (strings_Contains req.BaseURI "spkac" = true ∧
        strings_Contains req.BaseURI "accountStatus" = false →
        HandleSystem env w req s = spkacNew env w req s) ∧
    (¬ (strings_Contains req.BaseURI "accountStatus" = true ∧ s.vhosts = true) ∧
        ¬ (strings_Contains req.BaseURI "spkac" = true ∧
          strings_Contains req.BaseURI "accountStatus" = false) →
        HandleSystem env w req s = (Outcome.returned 200 "", w)) ∧
    (strings_Contains req.BaseURI "accountStatus" = true ∧ s.vhosts = false →
        HandleSystem env w req s = (Outcome.returned 200 "", w)) := by
  unfold HandleSystem
  refine ⟨?_, ?_, ?_, ?_⟩
  · rintro ⟨h1, h2⟩
    simp [h1, h2]
  · rintro ⟨h1, h2⟩
    simp [h1, h2]
  · rintro ⟨h1, h2⟩
    by_cases ha : strings_Contains req.BaseURI "accountStatus" = true
    · have hv : s.vhosts = false := by
        cases hvv : s.vhosts
        · rfl
        · exact absurd ⟨ha, hvv⟩ h1
      simp [ha, hv]
    · have ha2 : strings_Contains req.BaseURI "accountStatus" = false := by
        simpa using ha
      have hs : strings_Contains req.BaseURI "spkac" = false := by
        cases hss : strings_Contains req.BaseURI "spkac"
        · rfl
        · exact absurd ⟨hss, ha2⟩ h2
      simp [ha2, hs]
  · rintro ⟨h1, h2⟩
    simp [h1, h2]

/-- An "accountStatus" URI that also contains "spkac" is answered (200, "") without any
operating-system call when vhosts is disabled, is routed to the availability check when
it is enabled, and a "spkac" URI is routed to issuance. -/
theorem C10_HandleSystem_routes_witness :
    HandleSystem exampleEnv exampleWorld
        { statusRequest "Alice" with BaseURI := "https://example.org/,system/spkac/accountStatus" }
        { exampleServer with vhosts := false } = (Outcome.returned 200 "", exampleWorld) ∧
    HandleSystem exampleEnv exampleWorld (statusRequest "Alice") exampleServer
      = accountStatus exampleEnv exampleWorld (statusRequest "Alice") exampleServer ∧
    HandleSystem exampleEnv exampleWorld (issueRequest "Bob" "MIIB" "curl") exampleServer
      = spkacNew exampleEnv exampleWorld (issueRequest "Bob" "MIIB" "curl") exampleServer :=
  ⟨(C10_HandleSystem_routes _ _ _ _).2.2.2 ⟨by decide, rfl⟩,
   (C10_HandleSystem_routes _ _ _ _).1 ⟨by decide, rfl⟩,
   (C10_HandleSystem_routes _ _ _ _).2.1 ⟨by decide, by decide⟩⟩

/-- C1: for a request whose body parses to the account name N (and whose path resolved
to `resource`), `accountStatus` returns a JSON text whose `available` member is false
exactly when `os.Stat` finds a directory at s.root + lowercase(N) + "." +
resource.Root, and true otherwise (nothing there, or a file); a second request on the
same store and tenant whose name has the same lowercase form gets the same
`available` member. -/
theorem C1_available_iff_no_directory (env : Env) (w : World) (req : httpRequest) (s : Server)
    (r : pathInfo) (data : List Byte) (accReq : accountRequest)
    (hr : (env.Server_pathInfo s req.BaseURI).1 = some r)
    (hb : req.Body = .ok data) (hd : data ≠ [])
    (hu : env.json_Unmarshal data = .ok accReq) :
    ∃ payload b,
      (accountStatus env w req s).1 = Outcome.returned 200 payload ∧
      availableIn payload = some (JValue.bool b) ∧
      (b = false ↔
        os_Stat w.fs (accountRoot s (env.strings_ToLower accReq.AccountName) r.Root)
          = .ok Node.dir) ∧
      (b = true ↔
        os_Stat w.fs (accountRoot s (env.strings_ToLower accReq.AccountName) r.Root)
          ≠ .ok Node.dir) ∧
      ∀ (w2 : World) (req2 : httpRequest) (r2 : pathInfo) (data2 : List Byte)
        (accReq2 : accountRequest),
        w2.fs = w.fs → (env.Server_pathInfo s req2.BaseURI).1 = some r2 → r2.Root = r.Root →
        req2.Body = .ok data2 → data2 ≠ [] → env.json_Unmarshal data2 = .ok accReq2 →
        env.strings_ToLower accReq2.AccountName = env.strings_ToLower accReq.AccountName →
        ∃ payload2, (accountStatus env w2 req2 s).1 = Outcome.returned 200 payload2 ∧
          availableIn payload2 = some (JValue.bool b) := by
  refine ⟨_, _, accountStatus_ok env w req s r data accReq hr hb hd hu,
    availableIn_marshal _, ?_, ?_, ?_⟩
  · simp only [Bool.not_eq_false', statIsDir_iff]
  · rw [Ne, ← statIsDir_iff]
    simp
  · intro w2 req2 r2 data2 accReq2 hw hr2 hroot hb2 hd2 hu2 hlow
    refine ⟨_, accountStatus_ok env w2 req2 s r2 data2 accReq2 hr2 hb2 hd2 hu2, ?_⟩
    rw [availableIn_marshal, hw, hroot, hlow]

/-- On the example store "Alice" and "ALICE" are both reported taken (the directory of
`alice` exists), and "Carol", at whose path a plain file lies, is reported available. -/
theorem C1_available_iff_no_directory_witness :
    (∃ payload b,
      (accountStatus exampleEnv exampleWorld (statusRequest "Alice") exampleServer).1
        = Outcome.returned 200 payload ∧
      availableIn payload = some (JValue.bool b) ∧ b = false ∧
      ∃ payload2, (accountStatus exampleEnv exampleWorld (statusRequest "ALICE") exampleServer).1
        = Outcome.returned 200 payload2 ∧ availableIn payload2 = some (JValue.bool b)) ∧
    (∃ payload b,
      (accountStatus exampleEnv exampleWorld (statusRequest "Carol") exampleServer).1
        = Outcome.returned 200 payload ∧
      availableIn payload = some (JValue.bool b) ∧ b = true) := by
  constructor
  · obtain ⟨payload, b, h1, h2, h3, _, h5⟩ :=
      C1_available_iff_no_directory exampleEnv exampleWorld (statusRequest "Alice") exampleServer
        exampleResource _ { Method := "accountStatus", AccountName := "Alice" }
        (by decide) rfl (by decide) (by decide)
    exact ⟨payload, b, h1, h2, h3.mpr (by decide),
      h5 exampleWorld (statusRequest "ALICE") exampleResource _
        { Method := "accountStatus", AccountName := "ALICE" } rfl (by decide) rfl rfl
        (by decide) (by decide) (by decide)⟩
  · obtain ⟨payload, b, h1, h2, _, h4, _⟩ :=
      C1_available_iff_no_directory exampleEnv exampleWorld (statusRequest "Carol") exampleServer
        exampleResource _ { Method := "accountStatus", AccountName := "Carol" }
        (by decide) rfl (by decide) (by decide)
    exact ⟨payload, b, h1, h2, h4.mpr (by decide)⟩

/-- C5: an empty body and a body that `json.Unmarshal` rejects both make `accountStatus`
return the non-success status 500 with the explanation of the cause as its payload (the
fixed text for the empty body, the decoder's message otherwise); no response header is
set, no operating-system call is made and the store is unchanged. A non-empty body that
parses, for a request whose path resolved to a resource, gets status 200. -/
theorem C5_bad_body_rejected (env : Env) (w : World) (req : httpRequest) (s : Server) :
    (req.Body = .ok [] →
      (accountStatus env w req s).1
        = Outcome.returned 500 "Empty request for accountStatus API" ∧
      (accountStatus env w req s).2.calls = w.calls ∧
      (accountStatus env w req s).2.fs = w.fs ∧
      (accountStatus env w req s).2.header = w.header) ∧
    (∀ data e, req.Body = .ok data → data ≠ [] → env.json_Unmarshal data = .error e →
      (accountStatus env w req s).1 = Outcome.returned 500 e ∧
      (accountStatus env w req s).2.calls = w.calls ∧
      (accountStatus env w req s).2.fs = w.fs ∧
      (accountStatus env w req s).2.header = w.header) ∧
    (∀ data accReq r, req.Body = .ok data → data ≠ [] → env.json_Unmarshal data = .ok accReq →
      (env.Server_pathInfo s req.BaseURI).1 = some r →
      ∃ payload, (accountStatus env w req s).1 = Outcome.returned 200 payload) := by
  refine ⟨?_, ?_, ?_⟩
  · intro hb
    simp [accountStatus, hb, World.DebugLog]
  · intro data e hb hd hu
    have hlen : ¬ data.length = 0 := fun h => hd (List.length_eq_zero.mp h)
    simp [accountStatus, hb, hu, hlen, World.DebugLog]
  · intro data accReq r hb hd hu hr
    exact ⟨_, accountStatus_ok env w req s r data accReq hr hb hd hu⟩

/-- The empty body and the body `[1, 2]` (an array, not an object) are rejected with 500
and no operating-system call; the body naming "Alice" gets 200. -/
theorem C5_bad_body_rejected_witness :
    ((accountStatus exampleEnv exampleWorld emptyStatusRequest exampleServer).1
        = Outcome.returned 500 "Empty request for accountStatus API" ∧
      (accountStatus exampleEnv exampleWorld emptyStatusRequest exampleServer).2.calls = []) ∧
    ((accountStatus exampleEnv exampleWorld
        { emptyStatusRequest with Body := .ok (bytesOf "[true]") } exampleServer).1
        = Outcome.returned 500 "invalid character looking for beginning of value" ∧
      (accountStatus exampleEnv exampleWorld
        { emptyStatusRequest with Body := .ok (bytesOf "[true]") } exampleServer).2.calls = []) ∧
    (∃ payload, (accountStatus exampleEnv exampleWorld (statusRequest "Alice") exampleServer).1
        = Outcome.returned 200 payload) :=
  ⟨⟨((C5_bad_body_rejected _ _ _ _).1 rfl).1, ((C5_bad_body_rejected _ _ _ _).1 rfl).2.1⟩,
   ⟨((C5_bad_body_rejected _ _ _ _).2.1 _ "invalid character looking for beginning of value"
      rfl (by decide) (by decide)).1,
    ((C5_bad_body_rejected _ _ _ _).2.1 _ "invalid character looking for beginning of value"
      rfl (by decide) (by decide)).2.1⟩,
   (C5_bad_body_rejected _ _ _ _).2.2 _ { Method := "accountStatus", AccountName := "Alice" }
     exampleResource rfl (by decide) (by decide) (by decide)⟩

/-- C6: for a non-empty parseable body, whatever its Method field, `accountStatus`
(on a request whose path resolved to `resource`) returns status 200 and a JSON text
that reads back as the object with exactly the members method = "accountStatus",
status = "success", formuri = resource.Base + "/" + SystemPrefix + "/spkac" and
response = {accountName: lowercase(AccountName), available: a boolean}. -/
theorem C6_status_payload_shape (env : Env) (w : World) (req : httpRequest) (s : Server)
    (r : pathInfo) (data : List Byte) (accReq : accountRequest)
    (hr : (env.Server_pathInfo s req.BaseURI).1 = some r)
    (hb : req.Body = .ok data) (hd : data ≠ [])
    (hu : env.json_Unmarshal data = .ok accReq) :
    ∃ payload b,
      (accountStatus env w req s).1 = Outcome.returned 200 payload ∧
      payload = json_Marshal
        { Method := "accountStatus", Status := "success",
          Formuri := r.Base ++ "/" ++ env.SystemPrefix ++ "/spkac",
          Response := { AccountName := env.strings_ToLower accReq.AccountName,
                        Available := b } } ∧
      jsonParse payload = some (JValue.obj
        [("method", JValue.str "accountStatus"), ("status", JValue.str "success"),
         ("formuri", JValue.str (r.Base ++ "/" ++ env.SystemPrefix ++ "/spkac")),
         ("response", JValue.obj
           [("accountName", JValue.str (env.strings_ToLower accReq.AccountName)),
            ("available", JValue.bool b)])]) :=
  ⟨_, _, accountStatus_ok env w req s r data accReq hr hb hd hu, rfl, jsonParse_marshal _⟩

/-- The response to the request naming "Alice" with Method "anything". -/
theorem C6_status_payload_shape_witness :
    ∃ payload b,
      (accountStatus exampleEnv exampleWorld
        { statusRequest "Alice" with
          Body := .ok (bytesOf "\x7b\"Method\":\"anything\",\"AccountName\":\"Alice\"\x7d") }
        exampleServer).1 = Outcome.returned 200 payload ∧
      payload = json_Marshal
        { Method := "accountStatus", Status := "success",
          Formuri := "https://example.org" ++ "/" ++ ",system" ++ "/spkac",
          Response := { AccountName := asciiLower "Alice", Available := b } } ∧
      jsonParse payload = some (JValue.obj
        [("method", JValue.str "accountStatus"), ("status", JValue.str "success"),
         ("formuri", JValue.str ("https://example.org" ++ "/" ++ ",system" ++ "/spkac")),
         ("response", JValue.obj
           [("accountName", JValue.str (asciiLower "Alice")),
            ("available", JValue.bool b)])]) :=
  C6_status_payload_shape exampleEnv exampleWorld _ exampleServer exampleResource _
    { Method := "anything", AccountName := "Alice" } (by decide) rfl (by decide) (by decide)

/-- When every step succeeds, `spkacNew` returns 200 with the framed certificate. -/
theorem spkacNew_success (env : Env) (w : World) (req : httpRequest) (s : Server)
    (r : pathInfo) (cert : List Byte) (N : Nat) (E : Int) (fs1 fs2 : FS) (f : Loc)
    (text : String)
    (hr : (env.Server_pathInfo s req.BaseURI).1 = some r)
    (hmint : mintStep env req r = .ok cert)
    (hkey : extractStep env req = .ok (PublicKey.rsa N E))
    (hdir : mkdirStep env req s r w.fs = .ok fs1)
    (hopen : openStep env req s r fs1 = .ok (fs2, f))
    (hwrite : writeStep env req r N E = .ok text) :
    spkacNew env w req s =
      (Outcome.returned 200 (certFrame (base64_StdEncoding_EncodeToString cert)),
        issuedWorld env w req s r cert fs2 f text) := by
  simp only [mintStep, extractStep, mkdirStep, openStep, writeStep, spkacNew_username]
    at hmint hkey hdir hopen hwrite
  simp only [spkacNew, hr, hmint, hkey, World.called, hdir, hopen, hwrite, World.DebugLog,
    issuedWorld, spkacNew_username, List.append_assoc, List.cons_append, List.nil_append]
  split_ifs <;> rfl

/-- Status 200 is returned only after every step has succeeded. -/
theorem spkacNew_200 (env : Env) (w : World) (req : httpRequest) (s : Server)
    (payload : String)
    (h : (spkacNew env w req s).1 = Outcome.returned 200 payload) :
    ∃ r cert N E fs1 fs2 f text,
      (env.Server_pathInfo s req.BaseURI).1 = some r ∧
      mintStep env req r = .ok cert ∧
      extractStep env req = .ok (PublicKey.rsa N E) ∧
      mkdirStep env req s r w.fs = .ok fs1 ∧
      openStep env req s r fs1 = .ok (fs2, f) ∧
      writeStep env req r N E = .ok text := by
  cases hr : (env.Server_pathInfo s req.BaseURI).1 with
  | none => simp [spkacNew, hr] at h
  | some r =>
    cases hmint : mintStep env req r with
    | error e =>
      simp only [mintStep, spkacNew_username] at hmint
      simp [spkacNew, hr, hmint] at h
    | ok cert =>
      cases hkey : extractStep env req with
      | error e =>
        simp only [mintStep, extractStep, spkacNew_username] at hmint hkey
        simp [spkacNew, hr, hmint, hkey] at h
      | ok key =>
        cases key with
        | other kind =>
          simp only [mintStep, extractStep, spkacNew_username] at hmint hkey
          simp [spkacNew, hr, hmint, hkey] at h
        | rsa N E =>
          cases hdir : mkdirStep env req s r w.fs with
          | error e =>
            simp only [mintStep, extractStep, mkdirStep, spkacNew_username] at hmint hkey hdir
            simp [spkacNew, hr, hmint, hkey, World.called, hdir] at h
          | ok fs1 =>
            cases hopen : openStep env req s r fs1 with
            | error e =>
              simp only [mintStep, extractStep, mkdirStep, openStep, spkacNew_username]
                at hmint hkey hdir hopen
              simp [spkacNew, hr, hmint, hkey, World.called, hdir, hopen] at h
            | ok opened =>
              obtain ⟨fs2, f⟩ := opened
              cases hwrite : writeStep env req r N E with
              | error e =>
                simp only [mintStep, extractStep, mkdirStep, openStep, writeStep,
                  spkacNew_username] at hmint hkey hdir hopen hwrite
                simp [spkacNew, hr, hmint, hkey, World.called, hdir, hopen, hwrite] at h
              | ok text => exact ⟨r, cert, N, E, fs1, fs2, f, text, rfl, hmint, rfl, hdir, hopen, hwrite⟩

theorem webidFile_eq (s : Server) (u root : String) :
    spkacNew_webidPath s u root ++ "card" = accountRoot s u root ++ "/profile/card" := by
  simp only [spkacNew_webidPath, accountRoot, String.append_assoc]
  rfl

theorem accountRoot_ne_empty (s : Server) (u root : String) : accountRoot s u root ≠ "" := by
  intro e
  have h := congrArg String.length e
  simp only [accountRoot, String.length_append] at h
  have h1 : ".".length = 1 := by decide
  have h0 : "".length = 0 := by decide
  omega

/-- C3: when `spkacNew` returns 200 for the username U, then in the store it leaves
behind `os.Stat` finds a directory at the account root s.root + lowercase(U) + "." +
resource.Root and a file at "/profile/card" under it, and a following `accountStatus`
on that store and tenant for any name with the same lowercase form answers
available:false. -/
theorem C3_issued_account_exists (env : Env) (w : World) (req : httpRequest) (s : Server)
    (r : pathInfo) (payload : String)
    (hr : (env.Server_pathInfo s req.BaseURI).1 = some r)
    (h200 : (spkacNew env w req s).1 = Outcome.returned 200 payload) :
    os_Stat (spkacNew env w req s).2.fs
        (accountRoot s (env.strings_ToLower (req.FormValue "username")) r.Root)
      = .ok Node.dir ∧
    (∃ text, os_Stat (spkacNew env w req s).2.fs
        (accountRoot s (env.strings_ToLower (req.FormValue "username")) r.Root
          ++ "/profile/card") = .ok (Node.file text)) ∧
    ∀ (w2 : World) (req2 : httpRequest) (r2 : pathInfo) (data : List Byte)
      (accReq : accountRequest),
      w2.fs = (spkacNew env w req s).2.fs →
      (env.Server_pathInfo s req2.BaseURI).1 = some r2 → r2.Root = r.Root →
      req2.Body = .ok data → data ≠ [] → env.json_Unmarshal data = .ok accReq →
      env.strings_ToLower accReq.AccountName = env.strings_ToLower (req.FormValue "username") →
      ∃ payload2, (accountStatus env w2 req2 s).1 = Outcome.returned 200 payload2 ∧
        availableIn payload2 = some (JValue.bool false) := by
  obtain ⟨r1, cert, N, E, fs1, fs2, f, text, hr1, hmint, hkey, hdir, hopen, hwrite⟩ :=
    spkacNew_200 env w req s payload h200
  rw [hr] at hr1
  cases hr1
  rw [spkacNew_success env w req s r cert N E fs1 fs2 f text hr hmint hkey hdir hopen hwrite]
  simp only [issuedWorld]
  have hopen1 : os_OpenFile fs1
      (accountRoot s (env.strings_ToLower (req.FormValue "username")) r.Root ++ "/profile/card")
      = .ok (fs2, f) := by
    rw [← webidFile_eq]
    exact hopen
  obtain ⟨hd1, hf1⟩ := profile_created fs1 fs2 _ text f (accountRoot_ne_empty _ _ _) hopen1
  refine ⟨hd1, ⟨text, hf1⟩, ?_⟩
  intro w2 req2 r2 data accReq hw hr2 hroot hb hd hu hlow
  refine ⟨_, accountStatus_ok env w2 req2 s r2 data accReq hr2 hb hd hu, ?_⟩
  rw [availableIn_marshal]
  have : statIsDir w2.fs (accountRoot s (env.strings_ToLower accReq.AccountName) r2.Root)
      = true := by
    rw [statIsDir_iff, hw, hroot, hlow]
    exact hd1
  simp [this]

/-- After "Bob" has been issued a certificate on the example store, the directory
/srv/bob.example.org and the file profile/card under it exist, and "BOB" is reported
taken. -/
theorem C3_issued_account_exists_witness :
    (spkacNew exampleEnv exampleWorld (issueRequest "Bob" "MIIB" "curl") exampleServer).1
      = Outcome.returned 200 (certFrame "MIIBCgI=") ∧
    os_Stat (spkacNew exampleEnv exampleWorld (issueRequest "Bob" "MIIB" "curl") exampleServer).2.fs
      "/srv/bob.example.org" = .ok Node.dir ∧
    ∃ payload2, (accountStatus exampleEnv
        { exampleWorld with
          fs := (spkacNew exampleEnv exampleWorld (issueRequest "Bob" "MIIB" "curl")
            exampleServer).2.fs }
        (statusRequest "BOB") exampleServer).1 = Outcome.returned 200 payload2 ∧
      availableIn payload2 = some (JValue.bool false) :=
  ⟨by decide,
   (C3_issued_account_exists exampleEnv exampleWorld (issueRequest "Bob" "MIIB" "curl")
      exampleServer exampleResource (certFrame "MIIBCgI=") (by decide) (by decide)).1,
   (C3_issued_account_exists exampleEnv exampleWorld (issueRequest "Bob" "MIIB" "curl")
      exampleServer exampleResource (certFrame "MIIBCgI=") (by decide) (by decide)).2.2
      _ (statusRequest "BOB") exampleResource _ { Method := "accountStatus", AccountName := "BOB" }
      rfl (by decide) rfl rfl (by decide) (by decide) (by decide)⟩

/-- C4: whichever of the steps of an issuance is the first to fail with an error e
(certificate minting, key extraction, directory creation, opening the profile, writing
the profile), `spkacNew` returns status 500 with exactly the message of e as payload, so
no certificate is returned; and status 200 is returned only when minting, key
extraction, directory creation and both parts of profile persistence have succeeded. -/
theorem C4_first_failure_reported (env : Env) (w : World) (req : httpRequest) (s : Server)
    (r : pathInfo) (hr : (env.Server_pathInfo s req.BaseURI).1 = some r) :
    (∀ e, mintStep env req r = .error e →
      (spkacNew env w req s).1 = Outcome.returned 500 e) ∧
    (∀ cert e, mintStep env req r = .ok cert → extractStep env req = .error e →
      (spkacNew env w req s).1 = Outcome.returned 500 e) ∧
    (∀ cert N E e, mintStep env req r = .ok cert →
      extractStep env req = .ok (PublicKey.rsa N E) →
      mkdirStep env req s r w.fs = .error e →
      (spkacNew env w req s).1 = Outcome.returned 500 e) ∧
    (∀ cert N E fs1 e, mintStep env req r = .ok cert →
      extractStep env req = .ok (PublicKey.rsa N E) →
      mkdirStep env req s r w.fs = .ok fs1 → openStep env req s r fs1 = .error e →
      (spkacNew env w req s).1 = Outcome.returned 500 e) ∧
    (∀ cert N E fs1 fs2 f e, mintStep env req r = .ok cert →
      extractStep env req = .ok (PublicKey.rsa N E) →
      mkdirStep env req s r w.fs = .ok fs1 → openStep env req s r fs1 = .ok (fs2, f) →
      writeStep env req r N E = .error e →
      (spkacNew env w req s).1 = Outcome.returned 500 e) ∧
    (∀ payload, (spkacNew env w req s).1 = Outcome.returned 200 payload →
      ∃ cert N E fs1 fs2 f text, mintStep env req r = .ok cert ∧
        extractStep env req = .ok (PublicKey.rsa N E) ∧
        mkdirStep env req s r w.fs = .ok fs1 ∧ openStep env req s r fs1 = .ok (fs2, f) ∧
        writeStep env req r N E = .ok text) := by
  refine ⟨?_, ?_, ?_, ?_, ?_, ?_⟩
  · intro e hmint
    simp only [mintStep, spkacNew_username] at hmint
    simp [spkacNew, hr, hmint]
  · intro cert e hmint hkey
    simp only [mintStep, extractStep, spkacNew_username] at hmint hkey
    simp [spkacNew, hr, hmint, hkey]
  · intro cert N E e hmint hkey hdir
    simp only [mintStep, extractStep, mkdirStep, spkacNew_username] at hmint hkey hdir
    simp [spkacNew, hr, hmint, hkey, World.called, hdir]
  · intro cert N E fs1 e hmint hkey hdir hopen
    simp only [mintStep, extractStep, mkdirStep, openStep, spkacNew_username]
      at hmint hkey hdir hopen
    simp [spkacNew, hr, hmint, hkey, World.called, hdir, hopen]
  · intro cert N E fs1 fs2 f e hmint hkey hdir hopen hwrite
    simp only [mintStep, extractStep, mkdirStep, openStep, writeStep, spkacNew_username]
      at hmint hkey hdir hopen hwrite
    simp [spkacNew, hr, hmint, hkey, World.called, hdir, hopen, hwrite]
  · intro payload h200
    obtain ⟨r1, cert, N, E, fs1, fs2, f, text, hr1, h⟩ := spkacNew_200 env w req s payload h200
    rw [hr] at hr1
    cases hr1
    exact ⟨cert, N, E, fs1, fs2, f, text, h⟩

/-- On the example store: an empty signing request fails at minting; the username
"Carol", whose account path is a plain file, fails at directory creation; an empty
display name fails at writing the profile. Each returns 500 with the message of the
failure. -/
theorem C4_first_failure_reported_witness :
    (spkacNew exampleEnv exampleWorld (issueRequest "Bob" "" "curl") exampleServer).1
      = Outcome.returned 500 "asn1: syntax error: sequence truncated" ∧
    (spkacNew exampleEnv exampleWorld (issueRequest "Carol" "MIIB" "curl") exampleServer).1
      = Outcome.returned 500 "mkdir /srv/carol.example.org: not a directory" ∧
    (spkacNew exampleEnv exampleWorld
      { issueRequest "Bob" "MIIB" "curl" with Form := [("username", "Bob"), ("SPKAC", "MIIB")] }
      exampleServer).1 = Outcome.returned 500 "write: no space left on device" :=
  ⟨(C4_first_failure_reported exampleEnv exampleWorld _ exampleServer exampleResource
      (by decide)).1 _ (by decide),
   (C4_first_failure_reported exampleEnv exampleWorld _ exampleServer exampleResource
      (by decide)).2.2.1 [byteOf 48, byteOf 130, byteOf 1, byteOf 10, byteOf 2] 3233 17 _
      (by decide) (by decide) (by decide),
   (C4_first_failure_reported exampleEnv exampleWorld _ exampleServer exampleResource
      (by decide)).2.2.2.2.1 [byteOf 48, byteOf 130, byteOf 1, byteOf 10, byteOf 2] 3233 17
      { exampleFS with entries :=
          (["srv", "bob.example.org", "profile"], Node.dir) ::
          (["srv", "bob.example.org"], Node.dir) :: exampleFS.entries }
      { exampleFS with entries :=
          (["srv", "bob.example.org", "profile", "card"], Node.file "") ::
          (["srv", "bob.example.org", "profile"], Node.dir) ::
          (["srv", "bob.example.org"], Node.dir) :: exampleFS.entries }
      ["srv", "bob.example.org", "profile", "card"] _
      (by decide) (by decide) (by decide) (by decide) (by decide)⟩

/-- C7: when every step of an issuance succeeds, `spkacNew` returns status 200 and a body
that embeds the `StdEncoding` base64 text of the minted certificate between the fixed
opening and closing of the frame; decoding that text gives back exactly the minted
bytes; and afterwards the response header `HCType` holds
"application/x-x509-user-cert; charset=utf-8" exactly when the User-Agent contains
"Chrome" (or the header held that value before the call). -/
theorem C7_certificate_delivery (env : Env) (w : World) (req : httpRequest) (s : Server)
    (r : pathInfo) (cert : List Byte) (N : Nat) (E : Int) (fs1 fs2 : FS) (f : Loc)
    (text : String)
    (hr : (env.Server_pathInfo s req.BaseURI).1 = some r)
    (hmint : mintStep env req r = .ok cert)
    (hkey : extractStep env req = .ok (PublicKey.rsa N E))
    (hdir : mkdirStep env req s r w.fs = .ok fs1)
    (hopen : openStep env req s r fs1 = .ok (fs2, f))
    (hwrite : writeStep env req r N E = .ok text) :
    (spkacNew env w req s).1 = Outcome.returned 200
      ("<iframe width=\"0\" height=\"0\" style=\"display: none;\" src=\"data:application/x-x509-user-cert;base64," ++
        base64_StdEncoding_EncodeToString cert ++ "\"></iframe>") ∧
    base64_StdEncoding_DecodeString (base64_StdEncoding_EncodeToString cert) = some cert ∧
    (spkacNew env w req s).2.header =
      (if strings_Contains (req.Header.Get "User-Agent") "Chrome" then
        w.header.Set env.HCType "application/x-x509-user-cert; charset=utf-8"
      else w.header) ∧
    ((spkacNew env w req s).2.header.Get env.HCType
        = "application/x-x509-user-cert; charset=utf-8" ↔
      strings_Contains (req.Header.Get "User-Agent") "Chrome" = true ∨
        w.header.Get env.HCType = "application/x-x509-user-cert; charset=utf-8") := by
  rw [spkacNew_success env w req s r cert N E fs1 fs2 f text hr hmint hkey hdir hopen hwrite]
  refine ⟨rfl, base64_roundtrip cert, rfl, ?_⟩
  simp only [issuedWorld]
  by_cases hc : strings_Contains (req.Header.Get "User-Agent") "Chrome" = true
  · simp [hc, Header_Get_Set]
  · simp [hc]

/-- On the example store an issuance for "Bob" returns the frame around "MIIBCgI=",
which decodes to the five minted bytes; the header is set for a Chrome client. -/
theorem C7_certificate_delivery_witness :
    (spkacNew exampleEnv exampleWorld (issueRequest "Bob" "MIIB" "Mozilla/5.0 Chrome/40")
        exampleServer).1 = Outcome.returned 200
      ("<iframe width=\"0\" height=\"0\" style=\"display: none;\" src=\"data:application/x-x509-user-cert;base64," ++
        base64_StdEncoding_EncodeToString [byteOf 48, byteOf 130, byteOf 1, byteOf 10, byteOf 2]
        ++ "\"></iframe>") ∧
    base64_StdEncoding_DecodeString
        (base64_StdEncoding_EncodeToString [byteOf 48, byteOf 130, byteOf 1, byteOf 10, byteOf 2])
      = some [byteOf 48, byteOf 130, byteOf 1, byteOf 10, byteOf 2] ∧
    (spkacNew exampleEnv exampleWorld (issueRequest "Bob" "MIIB" "Mozilla/5.0 Chrome/40")
        exampleServer).2.header.Get "Content-Type"
      = "application/x-x509-user-cert; charset=utf-8" :=
  have h := C7_certificate_delivery exampleEnv exampleWorld
    (issueRequest "Bob" "MIIB" "Mozilla/5.0 Chrome/40") exampleServer exampleResource
    [byteOf 48, byteOf 130, byteOf 1, byteOf 10, byteOf 2] 3233 17
    { exampleFS with entries :=
        (["srv", "bob.example.org", "profile"], Node.dir) ::
        (["srv", "bob.example.org"], Node.dir) :: exampleFS.entries }
    { exampleFS with entries :=
        (["srv", "bob.example.org", "profile", "card"], Node.file "") ::
        (["srv", "bob.example.org", "profile"], Node.dir) ::
        (["srv", "bob.example.org"], Node.dir) :: exampleFS.entries }
    ["srv", "bob.example.org", "profile", "card"]
    "<https://bob.example.org:443/profile/card#me> a <http://xmlns.com/foaf/0.1/Person> ."
    (by decide) (by decide) (by decide) (by decide) (by decide) (by decide)
  ⟨h.1, h.2.1, h.2.2.2.mpr (Or.inl (by decide))⟩

/-- C9: when certificate minting or key extraction fails, `spkacNew` leaves the store
exactly as it was and makes no operating-system call (no directory is created, the
profile is neither opened nor written); an issuance that ends with a changed store is one
in which minting and key extraction had succeeded, that is, one that reached directory
creation. -/
theorem C9_early_failure_keeps_store (env : Env) (w : World) (req : httpRequest) (s : Server)
    (r : pathInfo) (hr : (env.Server_pathInfo s req.BaseURI).1 = some r) :
    (((∃ e, mintStep env req r = .error e) ∨ (∃ e, extractStep env req = .error e)) →
      (spkacNew env w req s).2.fs = w.fs ∧ (spkacNew env w req s).2.calls = w.calls) ∧
    ((spkacNew env w req s).2.fs ≠ w.fs →
      ∃ cert N E, mintStep env req r = .ok cert ∧
        extractStep env req = .ok (PublicKey.rsa N E)) := by
  have key : (¬ ∃ cert N E, mintStep env req r = .ok cert ∧
        extractStep env req = .ok (PublicKey.rsa N E)) →
      (spkacNew env w req s).2.fs = w.fs ∧ (spkacNew env w req s).2.calls = w.calls := by
    intro hno
    cases hmint : mintStep env req r with
    | error e =>
      simp only [mintStep, spkacNew_username] at hmint
      simp [spkacNew, hr, hmint, World.DebugLog]
    | ok cert =>
      cases hkey : extractStep env req with
      | error e =>
        simp only [mintStep, extractStep, spkacNew_username] at hmint hkey
        simp [spkacNew, hr, hmint, hkey, World.DebugLog]
      | ok key =>
        cases key with
        | other kind =>
          simp only [mintStep, extractStep, spkacNew_username] at hmint hkey
          simp [spkacNew, hr, hmint, hkey]
        | rsa N E => exact absurd ⟨cert, N, E, hmint, hkey⟩ hno
  constructor
  · intro h
    apply key
    rintro ⟨cert, N, E, hmint, hkey⟩
    rcases h with ⟨e, he⟩ | ⟨e, he⟩
    · rw [hmint] at he
      cases he
    · rw [hkey] at he
      cases he
  · intro hne
    by_contra hno
    exact hne (key hno).1

/-- An issuance with an empty signing request on the example store fails at minting and
leaves the store and the list of operating-system calls as they were. -/
theorem C9_early_failure_keeps_store_witness :
    (spkacNew exampleEnv exampleWorld (issueRequest "Bob" "" "curl") exampleServer).2.fs
      = exampleFS ∧
    (spkacNew exampleEnv exampleWorld (issueRequest "Bob" "" "curl") exampleServer).2.calls
      = [] :=
  (C9_early_failure_keeps_store exampleEnv exampleWorld (issueRequest "Bob" "" "curl")
    exampleServer exampleResource (by decide)).1
    (Or.inl ⟨"asn1: syntax error: sequence truncated", by decide⟩)

/-- C2, evaluated on the default port: with `ServerPort` = ":443" the identity URI
derived for the username "Alice" on the tenant "example.org" is
"https://alice.example.org:443/profile/card#me": the port is appended, because the
test `ServerPort != ":443" || ServerPort != ":80"` holds for every `ServerPort`. The
URI is read off the value and off an issuance whose minting step reports the URI it was
given. -/
theorem C2_default_port_is_appended :
    exampleEnv.ServerPort = ":443" ∧
    spkacNew_webidURI exampleEnv (exampleEnv.strings_ToLower "Alice") "example.org"
      = "https://alice.example.org:443/profile/card#me" ∧
    (spkacNew echoEnv exampleWorld (issueRequest "Alice" "MIIB" "curl") exampleServer).1
      = Outcome.returned 500 "https://alice.example.org:443/profile/card#me" ∧
    ∀ env : Env, spkacNew_port env = env.ServerPort := by
  refine ⟨rfl, by decide, by decide, ?_⟩
  intro env
  unfold spkacNew_port
  by_cases h : env.ServerPort = ":443"
  · have h2 : env.ServerPort ≠ ":80" := by
      rw [h]
      decide
    simp [h2]
  · simp [h]

/-- C8, evaluated on a failed path resolution: when `s.pathInfo` fails with
`InvalidPath` and hands back no resource, certificate issuance returns no status at
all; it stops in a nil-pointer panic at its first `resource.Root`. The availability
check does the same for a well-formed body, after it has set the response header. The
claim asks for a returned failure status. The same holds for every resolver and request
with that result. -/
theorem C8_failed_resolution_panics :
    noResourceEnv.Server_pathInfo exampleServer (issueRequest "Bob" "MIIB" "curl").BaseURI
      = (none, some "InvalidPath") ∧
    spkacNew noResourceEnv exampleWorld (issueRequest "Bob" "MIIB" "curl") exampleServer
      = (Outcome.panicked nilDereference, exampleWorld) ∧
    noResourceEnv.Server_pathInfo exampleServer (statusRequest "Alice").BaseURI
      = (none, some "InvalidPath") ∧
    (accountStatus noResourceEnv exampleWorld (statusRequest "Alice") exampleServer).1
      = Outcome.panicked nilDereference ∧
    (accountStatus noResourceEnv exampleWorld (statusRequest "Alice") exampleServer).2.header
      = [("Content-Type", "application/json")] ∧
    (∀ (env : Env) (w : World) (req : httpRequest) (s : Server) (e : String),
      env.Server_pathInfo s req.BaseURI = (none, some e) →
      spkacNew env w req s = (Outcome.panicked nilDereference, w)) ∧
    (∀ (env : Env) (w : World) (req : httpRequest) (s : Server) (e : String)
      (data : List Byte) (accReq : accountRequest),
      env.Server_pathInfo s req.BaseURI = (none, some e) →
      req.Body = .ok data → data ≠ [] → env.json_Unmarshal data = .ok accReq →
      (accountStatus env w req s).1 = Outcome.panicked nilDereference) := by
  refine ⟨rfl, by decide, rfl, by decide, by decide, ?_, ?_⟩
  · intro env w req s e hr
    simp [spkacNew, hr]
  · intro env w req s e data accReq hr hb hd hu
    have hlen : ¬ data.length = 0 := fun h => hd (List.length_eq_zero.mp h)
    simp [accountStatus, hr, hb, hlen, hu]

end Gold
